import Mathlib

/-!
Shallow embedding of the Android boot-image codec
(`mkbootimg.py` / `unpack_bootimg.py`).

Bytes are modelled as `Nat` values and containers as `List Nat`.
File objects become byte lists; `[]` stands for an absent or empty file
wherever only `filesize` distinguishes them, and `Option` is used where
the source distinguishes `None` from an empty file (`recovery_dtbo`).
Fallible code paths (`raise ValueError`, failed `assert`) are modelled
with `Except String` / `Option`.
-/

namespace Mkbootimg

/-- `struct.pack('I', n)`: four little-endian bytes (callers keep `n` in
32-bit range; out-of-range values are reduced, matching the bytes the
in-range source values produce). -/
def le32 (n : Nat) : List Nat :=
  [n % 256, n / 2 ^ 8 % 256, n / 2 ^ 16 % 256, n / 2 ^ 24 % 256]

/-- `struct.pack('Q', n)`: eight little-endian bytes. -/
def le64 (n : Nat) : List Nat :=
  [n % 256, n / 2 ^ 8 % 256, n / 2 ^ 16 % 256, n / 2 ^ 24 % 256,
   n / 2 ^ 32 % 256, n / 2 ^ 40 % 256, n / 2 ^ 48 % 256, n / 2 ^ 56 % 256]

/-- `struct.pack('Ns', s)`: truncate or NUL-pad to exactly `w` bytes. -/
def packStr (w : Nat) (s : List Nat) : List Nat :=
  s.take w ++ List.replicate (w - s.length) 0

/-- Byte count `pad_file` appends at stream position `pos` for alignment
`p` (mkbootimg.py: `(padding - (f.tell() & (padding - 1))) & (padding - 1)`). -/
def padAmount (p pos : Nat) : Nat := (p - (pos &&& (p - 1))) &&& (p - 1)

/-- `pad_file(f, p)`: append that many NUL bytes to the stream. -/
def padTo (p : Nat) (bs : List Nat) : List Nat :=
  bs ++ List.replicate (padAmount p bs.length) 0

/-- `get_number_of_pages(image_size, page_size)`. -/
def get_number_of_pages (image_size page_size : Nat) : Nat :=
  (image_size + page_size - 1) / page_size

/-- `write_padded_file(f_out, f_in, padding)` appended to existing output
`out`; a `None` input writes nothing (`[]` covers it: padding at an
already aligned position is zero for the power-of-two alignments used). -/
def write_padded_file (p : Nat) (out f : List Nat) : List Nat :=
  padTo p (out ++ f)

/-- `BOOT_MAGIC = 'ANDROID!'` as bytes. -/
def BOOT_MAGIC : List Nat := [65, 78, 68, 82, 79, 73, 68, 33]

/-- `VENDOR_BOOT_MAGIC = 'VNDRBOOT'` as bytes. -/
def VENDOR_BOOT_MAGIC : List Nat := [86, 78, 68, 82, 66, 79, 79, 84]

def BOOT_IMAGE_HEADER_V1_SIZE : Nat := 1648

def BOOT_IMAGE_HEADER_V2_SIZE : Nat := 1660

def BOOT_IMAGE_HEADER_V3_SIZE : Nat := 1580

def BOOT_IMAGE_HEADER_V3_PAGESIZE : Nat := 4096

def VENDOR_BOOT_IMAGE_HEADER_V3_SIZE : Nat := 2112

def VENDOR_BOOT_IMAGE_HEADER_V4_SIZE : Nat := 2128

def VENDOR_RAMDISK_NAME_SIZE : Nat := 32

def VENDOR_RAMDISK_TABLE_ENTRY_BOARD_ID_SIZE : Nat := 16

def VENDOR_RAMDISK_TABLE_ENTRY_V4_SIZE : Nat := 108

def VENDOR_RAMDISK_TYPE_NONE : Nat := 0

/-- Byte at index `i` of a container, `0` past the end. -/
def byteAt (bs : List Nat) (i : Nat) : Nat := bs.getD i 0

/-- `unpack('I', ...)` after seeking to `off`. -/
def readLE32 (bs : List Nat) (off : Nat) : Nat :=
  byteAt bs off + 2 ^ 8 * byteAt bs (off + 1) +
    2 ^ 16 * byteAt bs (off + 2) + 2 ^ 24 * byteAt bs (off + 3)

/-- `unpack('Q', ...)` after seeking to `off`. -/
def readLE64 (bs : List Nat) (off : Nat) : Nat :=
  byteAt bs off + 2 ^ 8 * byteAt bs (off + 1) +
    2 ^ 16 * byteAt bs (off + 2) + 2 ^ 24 * byteAt bs (off + 3) +
    2 ^ 32 * byteAt bs (off + 4) + 2 ^ 40 * byteAt bs (off + 5) +
    2 ^ 48 * byteAt bs (off + 6) + 2 ^ 56 * byteAt bs (off + 7)

/-- seek to `off`, then `read(n)` (fewer bytes past EOF, like a file read). -/
def readBytes (bs : List Nat) (off n : Nat) : List Nat := (bs.drop off).take n

/-- `cstr(s)`: keep everything strictly before the first NUL. -/
def cstr (s : List Nat) : List Nat := s.takeWhile (fun b => b != 0)

/-! ### Boot image, header versions 3 and 4

Encoder: `write_header_v3` followed by `write_data` with the fixed
4096-byte page (`main`, mkbootimg.py).  For these versions `main`
rejects `--second`, and `write_data` skips `recovery_dtbo`/`dtb`, so
only the kernel and ramdisk segments appear. -/

structure BootArgsV3 where
  kernel : List Nat
  ramdisk : List Nat
  os_version : Nat
  os_patch_level : Nat
  header_version : Nat
  cmdline : List Nat

/-- The 1580 fixed header bytes `write_header_v3` emits before padding. -/
def headerFieldsV3 (a : BootArgsV3) : List Nat :=
  packStr 8 BOOT_MAGIC ++
  le32 a.kernel.length ++
  le32 a.ramdisk.length ++
  le32 ((a.os_version <<< 11) ||| a.os_patch_level) ++
  le32 BOOT_IMAGE_HEADER_V3_SIZE ++
  (le32 0 ++ le32 0 ++ le32 0 ++ le32 0) ++
  le32 a.header_version ++
  packStr 1536 a.cmdline

/-- `write_header_v3`: header fields, then `pad_file(..., 4096)`. -/
def write_header_v3 (a : BootArgsV3) : List Nat :=
  padTo BOOT_IMAGE_HEADER_V3_PAGESIZE (headerFieldsV3 a)

/-- `write_data(args, BOOT_IMAGE_HEADER_V3_PAGESIZE)` for versions > 2:
kernel then ramdisk, each page-padded. -/
def encodeBootV3 (a : BootArgsV3) : List Nat :=
  write_padded_file 4096
    (write_padded_file 4096 (write_header_v3 a) a.kernel) a.ramdisk

/-- `format_os_version`: the three numeric components of the
`'{}.{}.{}'` string (decimal rendering of each component is a bijection
on the ranges that occur, so the string is modelled by its components). -/
def format_os_version (os_version : Nat) : Nat × Nat × Nat :=
  (os_version >>> 14, os_version >>> 7 &&& (1 <<< 7 - 1),
   os_version &&& (1 <<< 7 - 1))

/-- `format_os_patch_level`: the `(year, month)` components of the
`'{:04d}-{:02d}'` string. -/
def format_os_patch_level (os_patch_level : Nat) : Nat × Nat :=
  (os_patch_level >>> 4 + 2000, os_patch_level &&& (1 <<< 4 - 1))

/-- `parse_os_version` on a matched `a.b.c` string: the `assert`s on the
components become failure. -/
def parse_os_version (t : Nat × Nat × Nat) : Option Nat :=
  if t.1 < 128 ∧ t.2.1 < 128 ∧ t.2.2 < 128 then
    some ((t.1 <<< 14) ||| (t.2.1 <<< 7) ||| t.2.2)
  else none

/-- `parse_os_patch_level` on a matched `YYYY-MM` string: `y = YYYY - 2000`
(negative values fail the `0 <= y` assert) and `0 < m <= 12` become
failure when violated. -/
def parse_os_patch_level (t : Nat × Nat) : Option Nat :=
  if 2000 ≤ t.1 ∧ t.1 - 2000 < 128 ∧ 0 < t.2 ∧ t.2 ≤ 12 then
    some (((t.1 - 2000) <<< 4) ||| t.2)
  else none

/-- `get_boot_image_v3_args`: the `mkbootimg_args.json` record the
decoder persists for header version ≥ 3. -/
structure MetadataRecordV3 where
  header_version : Nat
  os_version_field : Nat × Nat × Nat
  os_patch_level_field : Nat × Nat
  cmdline : List Nat

/-- Result of `unpack_bootimage` on a version ≥ 3 image: the metadata
record plus the extracted kernel and ramdisk bytes. -/
structure BootDecodedV3 where
  meta : MetadataRecordV3
  kernel : List Nat
  ramdisk : List Nat

/-- `unpack_bootimage` for an embedded header version ≥ 3 (fields are at
the cumulative stream positions of the source's sequential reads; the
leading 8 magic bytes were consumed by `unpack_image`). -/
def unpackBootV3 (bs : List Nat) : BootDecodedV3 :=
  let kernel_size := readLE32 bs 8
  let ramdisk_size := readLE32 bs 12
  let os_field := readLE32 bs 16
  let version := readLE32 bs 40
  let cmdline := cstr (readBytes bs 44 1536)
  let page_size := BOOT_IMAGE_HEADER_V3_PAGESIZE
  let kernel_offset := page_size * 1
  let ramdisk_offset :=
    page_size * (1 + get_number_of_pages kernel_size page_size)
  { meta := { header_version := version
              os_version_field := format_os_version (os_field >>> 11)
              os_patch_level_field :=
                format_os_patch_level (os_field &&& (1 <<< 11 - 1))
              cmdline := cmdline }
    kernel := readBytes bs kernel_offset kernel_size
    ramdisk := readBytes bs ramdisk_offset ramdisk_size }

/-- Re-invoking `mkbootimg.py` with exactly the decoded record and the
extracted segment files: the CLI layer parses `os_version`,
`os_patch_level` (which can fail) and re-checks the cmdline length
(`AssertString(maxlen=1536)`). -/
def rebuildBootArgsV3 (d : BootDecodedV3) : Option BootArgsV3 := do
  let osv ← parse_os_version d.meta.os_version_field
  let patch ← parse_os_patch_level d.meta.os_patch_level_field
  if d.meta.cmdline.length > 1536 then none else
  some { kernel := d.kernel, ramdisk := d.ramdisk, os_version := osv,
         os_patch_level := patch, header_version := d.meta.header_version,
         cmdline := d.meta.cmdline }

/-! ### Vendor boot image, header versions 3 and 4 -/

/-- One `--vendor_ramdisk_fragment` option group (file bytes, type,
name, and the `--board_id{0..15}` vector; `none` stands for the
synthesized legacy entry's `board_id=None`). -/
structure RamdiskFragment where
  bytes : List Nat
  ramdisk_type : Nat
  ramdisk_name : List Nat
  board_id : Option (List Nat)

/-- `VendorRamdiskTableBuilder.VendorRamdiskTableEntry` (the path is
modelled by the file's bytes). -/
structure VendorRamdiskTableEntry where
  ramdisk_bytes : List Nat
  ramdisk_size : Nat
  ramdisk_offset : Nat
  ramdisk_type : Nat
  ramdisk_name : List Nat
  board_id : List Nat

/-- `VendorRamdiskTableBuilder` state. -/
structure VendorRamdiskTableBuilder where
  entries : List VendorRamdiskTableEntry
  ramdisk_total_size : Nat

/-- `VendorRamdiskTableBuilder.add_entry`. -/
def add_entry (b : VendorRamdiskTableBuilder) (f : RamdiskFragment) :
    Except String VendorRamdiskTableBuilder :=
  let bid := match f.board_id with
    | none => List.replicate VENDOR_RAMDISK_TABLE_ENTRY_BOARD_ID_SIZE 0
    | some l => l
  if bid.length ≠ VENDOR_RAMDISK_TABLE_ENTRY_BOARD_ID_SIZE then
    .error "board_id size must be 16"
  else
    .ok { entries := b.entries ++
            [{ ramdisk_bytes := f.bytes, ramdisk_size := f.bytes.length,
               ramdisk_offset := b.ramdisk_total_size,
               ramdisk_type := f.ramdisk_type,
               ramdisk_name := f.ramdisk_name, board_id := bid }]
          ramdisk_total_size := b.ramdisk_total_size + f.bytes.length }

/-- The 108 bytes `write_entries_padded` emits per entry: size, offset,
type, 32-byte name, 16-word board id. -/
def entryBytes (e : VendorRamdiskTableEntry) : List Nat :=
  le32 e.ramdisk_size ++ le32 e.ramdisk_offset ++ le32 e.ramdisk_type ++
    packStr VENDOR_RAMDISK_NAME_SIZE e.ramdisk_name ++
    (e.board_id.map le32).flatten

/-- The while-loop body of `parse_vendor_ramdisk_args`: per option
group, argparse's `AssertString(maxlen=32)` on the name runs first,
then the duplicate-name check, then `add_entry`. -/
def parseFragments (seen : List (List Nat)) (b : VendorRamdiskTableBuilder) :
    List RamdiskFragment → Except String VendorRamdiskTableBuilder
  | [] => .ok b
  | f :: fs =>
    if 32 < f.ramdisk_name.length then
      .error "String length exceeded"
    else if f.ramdisk_name ∈ seen then
      .error "Duplicated vendor ramdisk name"
    else do
      let b2 ← add_entry b f
      parseFragments (f.ramdisk_name :: seen) b2 fs

/-- `parse_vendor_ramdisk_args`: when `--vendor_ramdisk` is also given,
a legacy entry with empty name is synthesized first. -/
def parse_vendor_ramdisk_args (vendor_ramdisk : Option (List Nat))
    (frags : List RamdiskFragment) :
    Except String VendorRamdiskTableBuilder :=
  match vendor_ramdisk with
  | some v => do
    let b ← add_entry ⟨[], 0⟩
      { bytes := v, ramdisk_type := VENDOR_RAMDISK_TYPE_NONE,
        ramdisk_name := [], board_id := none }
    parseFragments [[]] b frags
  | none => parseFragments [] ⟨[], 0⟩ frags

/-- Encoder arguments for `--vendor_boot` (`vendor_ramdisk` keeps the
source's `None`-vs-file distinction; `vendor_bootconfig = []` covers an
absent bootconfig, whose size is 0 and whose write is a no-op). -/
structure VendorBootArgs where
  dtb : List Nat
  vendor_ramdisk : Option (List Nat)
  vendor_bootconfig : List Nat
  vendor_cmdline : List Nat
  board : List Nat
  base : Nat
  kernel_offset : Nat
  ramdisk_offset : Nat
  tags_offset : Nat
  dtb_offset : Nat
  pagesize : Nat
  header_version : Nat

/-- `filesize(args.vendor_ramdisk)`. -/
def vrSize (a : VendorBootArgs) : Nat := (a.vendor_ramdisk.getD []).length

/-- The fixed header bytes `write_vendor_boot_header` emits before its
final `pad_file` (2112 bytes for v3, 2128 for v4). -/
def vendorHeaderFields (a : VendorBootArgs)
    (total_size entry_num : Nat) : List Nat :=
  packStr 8 VENDOR_BOOT_MAGIC ++
  le32 a.header_version ++
  le32 a.pagesize ++
  le32 (a.base + a.kernel_offset) ++
  le32 (a.base + a.ramdisk_offset) ++
  le32 (if 3 < a.header_version then total_size else vrSize a) ++
  packStr 2048 a.vendor_cmdline ++
  le32 (a.base + a.tags_offset) ++
  packStr 16 a.board ++
  le32 (if 3 < a.header_version then VENDOR_BOOT_IMAGE_HEADER_V4_SIZE
        else VENDOR_BOOT_IMAGE_HEADER_V3_SIZE) ++
  le32 a.dtb.length ++
  le64 (a.base + a.dtb_offset) ++
  (if 3 < a.header_version then
    le32 (entry_num * VENDOR_RAMDISK_TABLE_ENTRY_V4_SIZE) ++
    le32 entry_num ++
    le32 VENDOR_RAMDISK_TABLE_ENTRY_V4_SIZE ++
    le32 a.vendor_bootconfig.length
  else [])

/-- `write_vendor_boot_header` (fails when the DTB is empty). -/
def write_vendor_boot_header (a : VendorBootArgs)
    (total_size entry_num : Nat) : Except String (List Nat) :=
  if a.dtb.length = 0 then .error "DTB image must not be empty."
  else .ok (padTo a.pagesize (vendorHeaderFields a total_size entry_num))

/-- `write_vendor_boot_data` for header version ≤ 3. -/
def write_vendor_boot_data_v3 (a : VendorBootArgs) (out : List Nat) :
    List Nat :=
  write_padded_file a.pagesize
    (write_padded_file a.pagesize out (a.vendor_ramdisk.getD []))
    a.dtb

/-- `write_vendor_boot_data` for header version 4:
`write_ramdisks_padded`, dtb, `write_entries_padded`, bootconfig. -/
def write_vendor_boot_data_v4 (a : VendorBootArgs)
    (b : VendorRamdiskTableBuilder) (out : List Nat) : List Nat :=
  let o1 := padTo a.pagesize
    (out ++ (b.entries.map (fun e => e.ramdisk_bytes)).flatten)
  let o2 := write_padded_file a.pagesize o1 a.dtb
  let o3 := padTo a.pagesize (o2 ++ (b.entries.map entryBytes).flatten)
  write_padded_file a.pagesize o3 a.vendor_bootconfig

/-- The `--vendor_boot` pipeline of `main` (with `parse_cmdline`'s
fragment parsing, which for `header_version > 3` runs before anything
is written): validity checks, header, then data. -/
def encodeVendorBoot (a : VendorBootArgs) (frags : List RamdiskFragment) :
    Except String (List Nat) :=
  if 3 < a.header_version then do
    let b ← parse_vendor_ramdisk_args a.vendor_ramdisk frags
    if ¬(a.header_version = 3 ∨ a.header_version = 4) then
      .error "--vendor_boot not compatible with given header version"
    else do
      let hdr ← write_vendor_boot_header a b.ramdisk_total_size
        b.entries.length
      .ok (write_vendor_boot_data_v4 a b hdr)
  else
    if ¬(a.header_version = 3 ∨ a.header_version = 4) then
      .error "--vendor_boot not compatible with given header version"
    else if a.header_version = 3 ∧ a.vendor_ramdisk = none then
      .error "--vendor_ramdisk missing or invalid"
    else do
      let hdr ← write_vendor_boot_header a 0 0
      .ok (write_vendor_boot_data_v3 a hdr)

/-- One row of a decoder's `image_info_list`: a named output slot, the
computed byte offset, and the byte count to read. -/
structure Extraction where
  name : String
  offset : Nat
  size : Nat
deriving DecidableEq

/-- The extraction loop shared by both decoders (`extract_image`: seek
to the offset, read exactly `size` bytes — fewer only past EOF — and
write them verbatim to the named output slot; a file is created for
every requested row, even when `size` is 0). -/
def extractFiles (bs : List Nat) (infos : List Extraction) :
    List (String × List Nat) :=
  infos.map fun e => (e.name, readBytes bs e.offset e.size)

/-- The `mkbootimg_args.json` record `unpack_vendor_bootimage` persists
(`get_vendor_boot_image_v3_args`); hex rendering of the numeric fields
is a bijection on their 32/64-bit ranges, so each string is modelled by
its numeric value, and `base` is the literal 0 the decoder writes. -/
structure VendorMetadataRecord where
  header_version : Nat
  pagesize : Nat
  base : Nat
  kernel_offset : Nat
  ramdisk_offset : Nat
  tags_offset : Nat
  dtb_offset : Nat
  vendor_cmdline : List Nat
  board : List Nat

/-- The header fields `unpack_vendor_bootimage` reads, at the cumulative
stream positions of its sequential reads (8-byte magic already
consumed by `unpack_image`). -/
def unpackVendorBootMeta (bs : List Nat) : VendorMetadataRecord :=
  { header_version := readLE32 bs 8
    pagesize := readLE32 bs 12
    base := 0
    kernel_offset := readLE32 bs 16
    ramdisk_offset := readLE32 bs 20
    tags_offset := readLE32 bs 2076
    dtb_offset := readLE64 bs 2104
    vendor_cmdline := cstr (readBytes bs 28 2048)
    board := cstr (readBytes bs 2080 16) }

/-- `unpack_vendor_bootimage`'s `image_info_list`: the vendor ramdisk
region (one slot for v3, one per table entry for v4) followed by the
dtb. -/
def unpackVendorBootInfos (bs : List Nat) : List Extraction :=
  let header_version := readLE32 bs 8
  let page_size := readLE32 bs 12
  let ramdisk_size := readLE32 bs 24
  let header_size := readLE32 bs 2096
  let dtb_size := readLE32 bs 2100
  let num_boot_header_pages := get_number_of_pages header_size page_size
  let num_boot_ramdisk_pages := get_number_of_pages ramdisk_size page_size
  let num_boot_dtb_pages := get_number_of_pages dtb_size page_size
  let ramdisk_offset_base := page_size * num_boot_header_pages
  let ramdisk_infos : List Extraction :=
    if 3 < header_version then
      let table_entry_num := readLE32 bs 2116
      let table_entry_size := readLE32 bs 2120
      let table_offset := page_size * (num_boot_header_pages +
        num_boot_ramdisk_pages + num_boot_dtb_pages)
      (List.range table_entry_num).map fun idx =>
        let entry_offset := table_offset + table_entry_size * idx
        { name := "vendor_ramdisk" ++ toString idx
          offset := ramdisk_offset_base + readLE32 bs (entry_offset + 4)
          size := readLE32 bs entry_offset }
    else
      [{ name := "vendor_ramdisk", offset := ramdisk_offset_base,
         size := ramdisk_size }]
  let dtb_offset := page_size * (num_boot_header_pages +
    num_boot_ramdisk_pages)
  ramdisk_infos ++ [{ name := "dtb", offset := dtb_offset, size := dtb_size }]

/-- Re-invoking `mkbootimg.py` with exactly the decoded vendor record
and the extracted `vendor_ramdisk`/`dtb` files: the CLI re-checks the
cmdline (`AssertString(maxlen=2048)`), the board name
(`AssertString(maxlen=16)`) and that the page size is one of the four
permitted powers of two (`choices=[2**i for i in range(11, 15)]`). -/
def rebuildVendorArgsV3 (m : VendorMetadataRecord)
    (vendor_ramdisk dtb : List Nat) : Option VendorBootArgs :=
  if 2048 < m.vendor_cmdline.length then none
  else if 16 < m.board.length then none
  else if ¬(m.pagesize = 2048 ∨ m.pagesize = 4096 ∨ m.pagesize = 8192 ∨
      m.pagesize = 16384) then none
  else some
    { dtb := dtb, vendor_ramdisk := some vendor_ramdisk,
      vendor_bootconfig := [], vendor_cmdline := m.vendor_cmdline,
      board := m.board, base := m.base, kernel_offset := m.kernel_offset,
      ramdisk_offset := m.ramdisk_offset, tags_offset := m.tags_offset,
      dtb_offset := m.dtb_offset, pagesize := m.pagesize,
      header_version := m.header_version }

/-- A v3 boot image built with the default (zero) os fields: its decoded
patch level prints as `2000-00`, whose month fails the encoder's
re-parse assertion. -/
def cexC1 : BootArgsV3 :=
  { kernel := [1], ramdisk := [2], os_version := 0, os_patch_level := 0,
    header_version := 3, cmdline := [] }

/-! ### Boot image, legacy header versions 0, 1 and 2 -/

/-- Encoder arguments for the legacy `write_header`/`write_data` path.
`recovery_dtbo` keeps the source's `None`-vs-file distinction (it alone
changes behaviour on it: the offset pair is zeroed only for `None`);
the other segments are byte lists, `[]` covering absent files. -/
structure BootArgsLegacy where
  kernel : List Nat
  ramdisk : List Nat
  second : List Nat
  recovery_dtbo : Option (List Nat)
  dtb : List Nat
  base : Nat
  kernel_offset : Nat
  ramdisk_offset : Nat
  second_offset : Nat
  tags_offset : Nat
  dtb_offset : Nat
  pagesize : Nat
  header_version : Nat
  os_version : Nat
  os_patch_level : Nat
  board : List Nat
  cmdline : List Nat

/-- `filesize` of an optional file. -/
def filesizeOpt : Option (List Nat) → Nat
  | none => 0
  | some f => f.length

/-- `get_recovery_dtbo_offset`: header page plus the page counts of
kernel, ramdisk and second. -/
def get_recovery_dtbo_offset (a : BootArgsLegacy) : Nat :=
  a.pagesize * (1 + get_number_of_pages a.kernel.length a.pagesize +
    get_number_of_pages a.ramdisk.length a.pagesize +
    get_number_of_pages a.second.length a.pagesize)

/-- The byte stream the `update_sha` calls of `write_header` feed to the
digest: content then 4-byte length per segment, `le32 0` alone for an
absent one, recovery_dtbo iff version > 0, dtb iff version > 1. -/
def sha_stream (a : BootArgsLegacy) : List Nat :=
  (a.kernel ++ le32 a.kernel.length) ++
  (a.ramdisk ++ le32 a.ramdisk.length) ++
  (a.second ++ le32 a.second.length) ++
  (if 0 < a.header_version then
    match a.recovery_dtbo with
    | none => le32 0
    | some f => f ++ le32 f.length
  else []) ++
  (if 1 < a.header_version then a.dtb ++ le32 a.dtb.length else [])

/-- The first 1632 legacy header bytes (magic through the extra
cmdline), common to versions 0-2, for an arbitrary digest function
`hash` (the source uses SHA-1; every property proved here holds for
any digest). -/
def legacyPrefix (hash : List Nat → List Nat) (a : BootArgsLegacy) :
    List Nat :=
  packStr 8 BOOT_MAGIC ++
  le32 a.kernel.length ++
  le32 (a.base + a.kernel_offset) ++
  le32 a.ramdisk.length ++
  le32 (if 0 < a.ramdisk.length then a.base + a.ramdisk_offset else 0) ++
  le32 a.second.length ++
  le32 (if 0 < a.second.length then a.base + a.second_offset else 0) ++
  le32 (a.base + a.tags_offset) ++
  le32 a.pagesize ++
  le32 a.header_version ++
  le32 ((a.os_version <<< 11) ||| a.os_patch_level) ++
  packStr 16 a.board ++
  packStr 512 a.cmdline ++
  packStr 32 (hash (sha_stream a)) ++
  packStr 1024 (a.cmdline.drop 512)

/-- The version-dependent legacy header tail: the recovery_dtbo
size/offset pair (version > 0; zeroed when no file was supplied), the
header-size field (versions 1 and 2) and the dtb pair (version 2). -/
def legacyTail (a : BootArgsLegacy) : List Nat :=
  (if 0 < a.header_version then
    match a.recovery_dtbo with
    | some _ => le32 (filesizeOpt a.recovery_dtbo) ++
        le64 (get_recovery_dtbo_offset a)
    | none => le32 0 ++ le64 0
  else []) ++
  (if a.header_version = 1 then le32 BOOT_IMAGE_HEADER_V1_SIZE
   else if a.header_version = 2 then le32 BOOT_IMAGE_HEADER_V2_SIZE
   else []) ++
  (if 1 < a.header_version then
    le32 a.dtb.length ++ le64 (a.base + a.dtb_offset)
  else [])

/-- The legacy header bytes `write_header` emits before its final
`pad_file`. -/
def headerFieldsLegacy (hash : List Nat → List Nat) (a : BootArgsLegacy) :
    List Nat :=
  legacyPrefix hash a ++ legacyTail a

/-- `write_header` on the legacy path: the DTB check precedes the dtb
tail; the header is then padded to the page size. -/
def write_header_legacy (hash : List Nat → List Nat) (a : BootArgsLegacy) :
    Except String (List Nat) :=
  if 1 < a.header_version ∧ a.dtb.length = 0 then
    .error "DTB image must not be empty."
  else .ok (padTo a.pagesize (headerFieldsLegacy hash a))

/-- The recovery_dtbo stage of `write_data` (`write_padded_file` is a
no-op for `None`, and runs only for versions 1-2). -/
def write_data_dtbo (a : BootArgsLegacy) (out : List Nat) : List Nat :=
  if 0 < a.header_version ∧ a.header_version < 3 then
    match a.recovery_dtbo with
    | none => out
    | some f => padTo a.pagesize (out ++ f)
  else out

/-- The dtb stage of `write_data` (version 2 only). -/
def write_data_dtb (a : BootArgsLegacy) (out : List Nat) : List Nat :=
  if a.header_version = 2 then padTo a.pagesize (out ++ a.dtb) else out

/-- `write_data` for header versions < 3: kernel, ramdisk, second, then
recovery_dtbo (versions 1-2) and dtb (version 2), each page-padded. -/
def write_data_legacy (a : BootArgsLegacy) (out : List Nat) : List Nat :=
  write_data_dtb a (write_data_dtbo a
    (write_padded_file a.pagesize
      (write_padded_file a.pagesize
        (write_padded_file a.pagesize out a.kernel) a.ramdisk) a.second))

/-- The legacy boot-image pipeline of `main`. -/
def encodeBootLegacy (hash : List Nat → List Nat) (a : BootArgsLegacy) :
    Except String (List Nat) := do
  let hdr ← write_header_legacy hash a
  .ok (write_data_legacy a hdr)

/-- `unpack_bootimage`'s `image_info_list` for an embedded header
version < 3: kernel and ramdisk always, second/recovery_dtbo/dtb only
when their declared size is positive; every offset is derived from
cumulative page counts except recovery_dtbo's, which is the stored
64-bit field used verbatim. -/
def unpackBootLegacyInfos (bs : List Nat) : List Extraction :=
  let kernel_size := readLE32 bs 8
  let ramdisk_size := readLE32 bs 16
  let second_size := readLE32 bs 24
  let page_size := readLE32 bs 36
  let version := readLE32 bs 40
  let recovery_dtbo_size :=
    if 0 < version ∧ version < 3 then readLE32 bs 1632 else 0
  let recovery_dtbo_offset := readLE64 bs 1636
  let dtb_size := if 1 < version ∧ version < 3 then readLE32 bs 1648 else 0
  let num_header_pages := 1
  let num_kernel_pages := get_number_of_pages kernel_size page_size
  let num_ramdisk_pages := get_number_of_pages ramdisk_size page_size
  let num_second_pages := get_number_of_pages second_size page_size
  let num_recovery_dtbo_pages :=
    get_number_of_pages recovery_dtbo_size page_size
  [{ name := "kernel", offset := page_size * num_header_pages,
     size := kernel_size },
   { name := "ramdisk",
     offset := page_size * (num_header_pages + num_kernel_pages),
     size := ramdisk_size }] ++
  (if 0 < second_size then
    [{ name := "second",
       offset := page_size * (num_header_pages + num_kernel_pages +
         num_ramdisk_pages),
       size := second_size }]
  else []) ++
  (if 0 < recovery_dtbo_size then
    [{ name := "recovery_dtbo", offset := recovery_dtbo_offset,
       size := recovery_dtbo_size }]
  else []) ++
  (if 0 < dtb_size then
    [{ name := "dtb",
       offset := page_size * (num_header_pages + num_kernel_pages +
         num_ramdisk_pages + num_second_pages + num_recovery_dtbo_pages),
       size := dtb_size }]
  else [])

/-- Scenario A of the spec: version 2, page size 4096, five 4096-byte
segments. -/
def cexC3 : BootArgsLegacy :=
  { kernel := List.replicate 4096 1, ramdisk := List.replicate 4096 2,
    second := List.replicate 4096 3,
    recovery_dtbo := some (List.replicate 4096 4),
    dtb := List.replicate 4096 5, base := 0, kernel_offset := 0,
    ramdisk_offset := 0, second_offset := 0, tags_offset := 0,
    dtb_offset := 0, pagesize := 4096, header_version := 2,
    os_version := 0, os_patch_level := 0, board := [], cmdline := [] }

/-- A minimal container whose embedded version is 1 and whose
recovery_dtbo size field is 1, with 77 stored as the dtbo offset. -/
def cexC3bs : List Nat :=
  List.replicate 40 0 ++ le32 1 ++ List.replicate 1588 0 ++
    le32 1 ++ le64 77

/-- A small version-0 boot image with an absent ramdisk and second. -/
def cexC10 : BootArgsLegacy :=
  { kernel := [1], ramdisk := [], second := [], recovery_dtbo := none,
    dtb := [], base := 256, kernel_offset := 1, ramdisk_offset := 2,
    second_offset := 3, tags_offset := 4, dtb_offset := 5,
    pagesize := 2048, header_version := 0, os_version := 0,
    os_patch_level := 0, board := [], cmdline := [] }

/-- A small version-1 image with an absent recovery_dtbo. -/
def cexC8a : BootArgsLegacy :=
  { kernel := [1, 2], ramdisk := [3], second := [],
    recovery_dtbo := none, dtb := [], base := 0, kernel_offset := 1,
    ramdisk_offset := 2, second_offset := 3, tags_offset := 4,
    dtb_offset := 5, pagesize := 2048, header_version := 1,
    os_version := 0, os_patch_level := 0, board := [], cmdline := [] }

/-- The same segments with different addresses and cmdline. -/
def cexC8b : BootArgsLegacy :=
  { kernel := [1, 2], ramdisk := [3], second := [],
    recovery_dtbo := none, dtb := [], base := 4096, kernel_offset := 7,
    ramdisk_offset := 8, second_offset := 9, tags_offset := 10,
    dtb_offset := 11, pagesize := 4096, header_version := 1,
    os_version := 0, os_patch_level := 0, board := [66],
    cmdline := [65] }

/-- A small vendor-boot argument set on page size 2048. -/
def cexC2v : VendorBootArgs :=
  { dtb := [7], vendor_ramdisk := some [9], vendor_bootconfig := [],
    vendor_cmdline := [], board := [], base := 0, kernel_offset := 0,
    ramdisk_offset := 0, tags_offset := 0, dtb_offset := 0,
    pagesize := 2048, header_version := 3 }

/-- Adding a list of fragments to the table builder in order
(`add_entry` applied successively). -/
def addEntries (b : VendorRamdiskTableBuilder) :
    List RamdiskFragment → Except String VendorRamdiskTableBuilder
  | [] => .ok b
  | f :: fs => do
    let b2 ← add_entry b f
    addEntries b2 fs

/-- The entry `add_entry` appends for fragment `f` at running offset
`off`. -/
def entryOf (f : RamdiskFragment) (off : Nat) : VendorRamdiskTableEntry :=
  { ramdisk_bytes := f.bytes, ramdisk_size := f.bytes.length,
    ramdisk_offset := off, ramdisk_type := f.ramdisk_type,
    ramdisk_name := f.ramdisk_name,
    board_id := match f.board_id with
      | none => List.replicate VENDOR_RAMDISK_TABLE_ENTRY_BOARD_ID_SIZE 0
      | some l => l }

/-- The entries the builder accumulates for `fs`, starting at running
offset `off`. -/
def expectedEntries (off : Nat) :
    List RamdiskFragment → List VendorRamdiskTableEntry
  | [] => []
  | f :: fs => entryOf f off :: expectedEntries (off + f.bytes.length) fs

/-- Scenario B's fragments: sizes 0x1000 and 0x2000, names RAMDISK1
and RAMDISK2. -/
def cexC4 : List RamdiskFragment :=
  [{ bytes := List.replicate 4096 1, ramdisk_type := 1,
     ramdisk_name := [82, 65, 77, 68, 73, 83, 75, 49],
     board_id := none },
   { bytes := List.replicate 8192 2, ramdisk_type := 1,
     ramdisk_name := [82, 65, 77, 68, 73, 83, 75, 50],
     board_id := none }]

/-- A v4 vendor-boot argument set. -/
def cexC4v : VendorBootArgs :=
  { dtb := [7], vendor_ramdisk := none, vendor_bootconfig := [],
    vendor_cmdline := [], board := [], base := 0, kernel_offset := 0,
    ramdisk_offset := 0, tags_offset := 0, dtb_offset := 0,
    pagesize := 2048, header_version := 4 }

/-- `AssertString(maxlen).__call__`: raises only when the string is
strictly longer than `maxlen` (`if len(arg) > self.maxlen`). -/
def AssertString (maxlen : Nat) (arg : List Nat) : Except String (List Nat) :=
  if maxlen < arg.length then .error "String length exceeded" else .ok arg

/-- `unpack_bootimage` for an embedded header version ≥ 3.
`struct.unpack` demands exactly as many bytes as the format needs, and
the sequential header reads end with `unpack('1536s', read(1536))` at
byte 1580, so the decode raises on any container shorter than that
(this also covers a short `unpack('9I', ...)`); otherwise the
`image_info_list` requests kernel and ramdisk, unconditionally, on the
fixed 4096 page. -/
def unpackBootV3Infos (bs : List Nat) : Except String (List Extraction) :=
  if bs.length < 1580 then .error "Short read" else
  .ok [{ name := "kernel", offset := BOOT_IMAGE_HEADER_V3_PAGESIZE * 1,
         size := readLE32 bs 8 },
       { name := "ramdisk",
         offset := BOOT_IMAGE_HEADER_V3_PAGESIZE *
           (1 + get_number_of_pages (readLE32 bs 8)
             BOOT_IMAGE_HEADER_V3_PAGESIZE),
         size := readLE32 bs 12 }]

/-- `unpack_bootimage`: branch on the embedded header-version field.
On the legacy branch the sequential header `unpack`s end at byte 1632
(version 0), 1648 (versions with the recovery_dtbo trio) or 1660
(version 2 adds the dtb pair), and each raises on a short read (only
the SHA field's plain `read(32)` is never unpacked), so a container
that ends before the last header read fails before any
`image_info_list` is built. -/
def unpack_bootimage_infos (bs : List Nat) : Except String (List Extraction) :=
  if readLE32 bs 40 < 3 then
    if bs.length < (if readLE32 bs 40 = 0 then 1632 else
        if readLE32 bs 40 = 1 then 1648 else 1660) then
      .error "Short read"
    else .ok (unpackBootLegacyInfos bs)
  else unpackBootV3Infos bs

/-- What a call to `unpack_image` does: run the boot decoder, run the
vendor-boot decoder, or fall through. `skipped` models the source's
behaviour for any other magic: the `if`/`elif` chain simply ends and
the function returns normally, raising nothing. -/
inductive UnpackResult where
  | boot (res : Except String (List Extraction))
  | vendorBoot (infos : List Extraction)
  | skipped

/-- `unpack_image`: read the first 8 bytes and dispatch on them. -/
def unpack_image (bs : List Nat) : UnpackResult :=
  if bs.take 8 = BOOT_MAGIC then .boot (unpack_bootimage_infos bs)
  else if bs.take 8 = VENDOR_BOOT_MAGIC then
    .vendorBoot (unpackVendorBootInfos bs)
  else .skipped

/-- Encoder arguments for a v3 boot image with empty kernel and
ramdisk files. -/
def cexC9 : BootArgsV3 :=
  { kernel := [], ramdisk := [], os_version := 0, os_patch_level := 0,
    header_version := 3, cmdline := [] }

/-- The container those arguments produce: the padded header alone,
a well-formed 4096-byte v3 boot image whose kernel and ramdisk sizes
are 0 (every header read of the decoder is in bounds). -/
def cexC9bs : List Nat := encodeBootV3 cexC9

/-! ### Arithmetic and list toolkit -/

theorem le32_length (n : Nat) : (le32 n).length = 4 := rfl

theorem le64_length (n : Nat) : (le64 n).length = 8 := rfl

theorem packStr_length (w : Nat) (s : List Nat) : (packStr w s).length = w := by
  simp [packStr]
  omega

theorem padAmount_two_pow (k pos : Nat) :
    padAmount (2 ^ k) pos = (2 ^ k - pos % 2 ^ k) % 2 ^ k := by
  unfold padAmount
  rw [Nat.and_pow_two_sub_one_eq_mod, Nat.and_pow_two_sub_one_eq_mod]

theorem pad_len_eq (p n : Nat) (hp : 0 < p) :
    n + (p - n % p) % p = p * ((n + p - 1) / p) := by
  obtain ⟨q, r, hr, hn⟩ : ∃ q r, r < p ∧ n = p * q + r :=
    ⟨n / p, n % p, Nat.mod_lt _ hp, (Nat.div_add_mod n p).symm⟩
  subst hn
  have hmod : (p * q + r) % p = r := by
    rw [Nat.mul_add_mod]
    exact Nat.mod_eq_of_lt hr
  rw [hmod, show p * q + r + p - 1 = p * q + (r + p - 1) by omega,
      Nat.mul_add_div hp]
  rcases Nat.eq_zero_or_pos r with h0 | h0
  · subst h0
    rw [Nat.div_eq_of_lt (by omega : 0 + p - 1 < p), Nat.sub_zero, Nat.mod_self]
    simp
  · rw [Nat.mod_eq_of_lt (by omega : p - r < p),
        show r + p - 1 = p * 1 + (r - 1) by omega, Nat.mul_add_div hp,
        Nat.div_eq_of_lt (by omega : r - 1 < p), Nat.mul_add, Nat.mul_one]
    generalize p * q = m
    omega

theorem padTo_length (k : Nat) (bs : List Nat) :
    (padTo (2 ^ k) bs).length =
      2 ^ k * get_number_of_pages bs.length (2 ^ k) := by
  have hp : 0 < 2 ^ k := Nat.pos_pow_of_pos k (by norm_num)
  rw [padTo, List.length_append, List.length_replicate, padAmount_two_pow,
      get_number_of_pages]
  exact pad_len_eq _ _ hp

theorem padTo_length_mod (k : Nat) (bs : List Nat) :
    (padTo (2 ^ k) bs).length % 2 ^ k = 0 := by
  rw [padTo_length]
  exact Nat.mul_mod_right _ _

theorem byteAt_append_left {l r : List Nat} {i : Nat} (h : i < l.length) :
    byteAt (l ++ r) i = byteAt l i :=
  List.getD_append l r 0 i h

theorem byteAt_append_right {l r : List Nat} {i : Nat} (h : l.length ≤ i) :
    byteAt (l ++ r) i = byteAt r (i - l.length) :=
  List.getD_append_right l r 0 i h

theorem readLE32_append_inner {l r : List Nat} {off : Nat}
    (h : off + 4 ≤ l.length) : readLE32 (l ++ r) off = readLE32 l off := by
  unfold readLE32
  rw [byteAt_append_left (by omega), byteAt_append_left (by omega),
      byteAt_append_left (by omega), byteAt_append_left (by omega)]

theorem readLE32_append_skip {l r : List Nat} {off : Nat}
    (h : l.length ≤ off) : readLE32 (l ++ r) off = readLE32 r (off - l.length) := by
  unfold readLE32
  rw [byteAt_append_right (by omega), byteAt_append_right (by omega),
      byteAt_append_right (by omega), byteAt_append_right (by omega),
      show off + 1 - l.length = off - l.length + 1 by omega,
      show off + 2 - l.length = off - l.length + 2 by omega,
      show off + 3 - l.length = off - l.length + 3 by omega]

theorem readLE64_append_inner {l r : List Nat} {off : Nat}
    (h : off + 8 ≤ l.length) : readLE64 (l ++ r) off = readLE64 l off := by
  unfold readLE64
  rw [byteAt_append_left (by omega), byteAt_append_left (by omega),
      byteAt_append_left (by omega), byteAt_append_left (by omega),
      byteAt_append_left (by omega), byteAt_append_left (by omega),
      byteAt_append_left (by omega), byteAt_append_left (by omega)]

theorem readLE64_append_skip {l r : List Nat} {off : Nat}
    (h : l.length ≤ off) : readLE64 (l ++ r) off = readLE64 r (off - l.length) := by
  unfold readLE64
  rw [byteAt_append_right (by omega), byteAt_append_right (by omega),
      byteAt_append_right (by omega), byteAt_append_right (by omega),
      byteAt_append_right (by omega), byteAt_append_right (by omega),
      byteAt_append_right (by omega), byteAt_append_right (by omega),
      show off + 1 - l.length = off - l.length + 1 by omega,
      show off + 2 - l.length = off - l.length + 2 by omega,
      show off + 3 - l.length = off - l.length + 3 by omega,
      show off + 4 - l.length = off - l.length + 4 by omega,
      show off + 5 - l.length = off - l.length + 5 by omega,
      show off + 6 - l.length = off - l.length + 6 by omega,
      show off + 7 - l.length = off - l.length + 7 by omega]

theorem readLE32_le32 (n : Nat) (r : List Nat) :
    readLE32 (le32 n ++ r) 0 = n % 2 ^ 32 := by
  simp [readLE32, byteAt, le32]
  omega

theorem readLE64_le64 (n : Nat) (r : List Nat) :
    readLE64 (le64 n ++ r) 0 = n % 2 ^ 64 := by
  simp [readLE64, byteAt, le64]
  omega

theorem readBytes_append_inner {l r : List Nat} {off n : Nat}
    (h : off + n ≤ l.length) : readBytes (l ++ r) off n = readBytes l off n := by
  unfold readBytes
  rw [List.drop_append_of_le_length (by omega)]
  rw [List.take_append_of_le_length]
  simp
  omega

theorem readBytes_append_skip {l r : List Nat} {off n : Nat}
    (h : l.length ≤ off) :
    readBytes (l ++ r) off n = readBytes r (off - l.length) n := by
  unfold readBytes
  congr 1
  rcases Nat.exists_eq_add_of_le h with ⟨i, rfl⟩
  rw [List.drop_append]
  simp

theorem takeWhile_replicate_nul (k : Nat) :
    List.takeWhile (fun b : Nat => b != 0) (List.replicate k 0) = [] := by
  cases k with
  | zero => rfl
  | succ m => simp [List.replicate_succ, List.takeWhile_cons]

theorem cstr_append_replicate {c : List Nat} (h : ∀ b ∈ c, b ≠ 0) (k : Nat) :
    cstr (c ++ List.replicate k 0) = c := by
  unfold cstr
  induction c with
  | nil =>
    rw [List.nil_append]
    exact takeWhile_replicate_nul k
  | cons x xs ih =>
    have hx : (x != 0) = true := by
      simpa using h x (by simp)
    simp only [List.cons_append, List.takeWhile_cons, hx, if_true]
    rw [ih fun b hb => h b (by simp [hb])]

theorem cstr_packStr {c : List Nat} {w : Nat} (h : ∀ b ∈ c, b ≠ 0)
    (hl : c.length ≤ w) : cstr (packStr w c) = c := by
  unfold packStr
  rw [List.take_of_length_le hl]
  exact cstr_append_replicate h _

/-! Chunk-skipping forms of the read lemmas, convenient for peeling a
header made of fixed-width fields. -/

theorem readLE32_chunk {l r : List Nat} {off n : Nat} (h : l.length = n)
    (hle : n ≤ off) : readLE32 (l ++ r) off = readLE32 r (off - n) := by
  subst h
  exact readLE32_append_skip hle

theorem readLE64_chunk {l r : List Nat} {off n : Nat} (h : l.length = n)
    (hle : n ≤ off) : readLE64 (l ++ r) off = readLE64 r (off - n) := by
  subst h
  exact readLE64_append_skip hle

theorem readBytes_chunk {l r : List Nat} {off n m : Nat} (h : l.length = m)
    (hle : m ≤ off) : readBytes (l ++ r) off n = readBytes r (off - m) n := by
  subst h
  exact readBytes_append_skip hle

theorem readBytes_packStr_self {w : Nat} {c r : List Nat} :
    readBytes (packStr w c ++ r) 0 w = packStr w c := by
  unfold readBytes
  rw [List.drop_zero]
  exact List.take_left' (packStr_length w c)

theorem readBytes_self {l r : List Nat} {n : Nat} (h : l.length = n) :
    readBytes (l ++ r) 0 n = l := by
  unfold readBytes
  rw [List.drop_zero]
  exact List.take_left' h

/-- `y < 2 ^ n` lets a shifted bitwise-or be read as addition. -/
theorem lor_shift (x y n : Nat) (h : y < 2 ^ n) :
    (x <<< n) ||| y = x <<< n + y := by
  rw [Nat.shiftLeft_eq, Nat.mul_comm, ← Nat.mul_add_lt_is_or h x]

theorem readBytes_all {l : List Nat} {n : Nat} (h : l.length = n) :
    readBytes l 0 n = l := by
  unfold readBytes
  rw [List.drop_zero]
  exact List.take_of_length_le (le_of_eq h)

theorem le_length_padTo (p : Nat) (bs : List Nat) :
    bs.length ≤ (padTo p bs).length := by
  simp [padTo]

/-! ### Properties of the v3/v4 boot codec -/

theorem headerFieldsV3_length (a : BootArgsV3) :
    (headerFieldsV3 a).length = 1580 := by
  simp [headerFieldsV3, packStr_length, le32, BOOT_MAGIC]

theorem write_header_v3_length (a : BootArgsV3) :
    (write_header_v3 a).length = 4096 := by
  rw [write_header_v3, BOOT_IMAGE_HEADER_V3_PAGESIZE,
      show (4096 : Nat) = 2 ^ 12 by norm_num, padTo_length,
      headerFieldsV3_length]
  norm_num [get_number_of_pages]

theorem pages_page_add (p n : Nat) (hp : 0 < p) :
    get_number_of_pages (p + n) p = 1 + get_number_of_pages n p := by
  unfold get_number_of_pages
  rw [show p + n + p - 1 = p * 1 + (n + p - 1) by omega, Nat.mul_add_div hp]

/-- Length of the output after the kernel segment is written: the
page-aligned header plus the page count of the kernel. -/
theorem encodeBootV3_kernel_stage_length (a : BootArgsV3) :
    (padTo 4096 (write_header_v3 a ++ a.kernel)).length =
      4096 * (1 + get_number_of_pages a.kernel.length 4096) := by
  rw [show (4096 : Nat) = 2 ^ 12 by norm_num, padTo_length,
      List.length_append, write_header_v3_length,
      show (4096 : Nat) = 2 ^ 12 by norm_num,
      pages_page_add _ _ (by norm_num)]

/-- Reads wholly inside the first 1580 bytes of a v3/v4 boot image see
only the header fields. -/
theorem encodeBootV3_read_header (a : BootArgsV3) {off : Nat}
    (h : off + 4 ≤ 1580) :
    readLE32 (encodeBootV3 a) off = readLE32 (headerFieldsV3 a) off := by
  have h1 := write_header_v3_length a
  have hX : 4096 ≤ (padTo 4096 (write_header_v3 a ++ a.kernel)).length := by
    calc 4096 = (write_header_v3 a).length := h1.symm
    _ ≤ (write_header_v3 a ++ a.kernel).length := by simp
    _ ≤ _ := le_length_padTo _ _
  unfold encodeBootV3 write_padded_file
  rw [padTo, readLE32_append_inner (by simp; omega),
      readLE32_append_inner (by omega),
      padTo, readLE32_append_inner (by simp; omega),
      readLE32_append_inner (by omega),
      write_header_v3, padTo,
      readLE32_append_inner (by rw [headerFieldsV3_length]; omega)]

theorem encodeBootV3_read_header_bytes (a : BootArgsV3) {off n : Nat}
    (h : off + n ≤ 1580) :
    readBytes (encodeBootV3 a) off n = readBytes (headerFieldsV3 a) off n := by
  have h1 := write_header_v3_length a
  have hX : 4096 ≤ (padTo 4096 (write_header_v3 a ++ a.kernel)).length := by
    calc 4096 = (write_header_v3 a).length := h1.symm
    _ ≤ (write_header_v3 a ++ a.kernel).length := by simp
    _ ≤ _ := le_length_padTo _ _
  unfold encodeBootV3 write_padded_file
  rw [padTo, readBytes_append_inner (by simp; omega),
      readBytes_append_inner (by omega),
      padTo, readBytes_append_inner (by simp; omega),
      readBytes_append_inner (by omega),
      write_header_v3, padTo,
      readBytes_append_inner (by rw [headerFieldsV3_length]; omega)]

theorem le32_len (x : Nat) : (le32 x).length = 4 := rfl

theorem magic_len : (packStr 8 BOOT_MAGIC).length = 8 := rfl

/-- Ceiling pages never undercount: `n ≤ p * pages(n)`. -/
theorem le_mul_pages (p n : Nat) (hp : 0 < p) :
    n ≤ p * get_number_of_pages n p := by
  unfold get_number_of_pages
  rcases Nat.eq_zero_or_pos n with h0 | h0
  · simp [h0]
  · rw [show n + p - 1 = (n - 1) + p by omega, Nat.add_div_right _ hp,
        Nat.mul_add, Nat.mul_one]
    have h2 := Nat.div_add_mod (n - 1) p
    have h3 : (n - 1) % p < p := Nat.mod_lt _ hp
    set A := p * ((n - 1) / p)
    omega

theorem hdrV3_kernel_size (a : BootArgsV3) :
    readLE32 (headerFieldsV3 a) 8 = a.kernel.length % 2 ^ 32 := by
  rw [headerFieldsV3]
  simp only [List.append_assoc]
  rw [readLE32_chunk magic_len (by norm_num)]
  simpa using readLE32_le32 _ _

theorem hdrV3_ramdisk_size (a : BootArgsV3) :
    readLE32 (headerFieldsV3 a) 12 = a.ramdisk.length % 2 ^ 32 := by
  rw [headerFieldsV3]
  simp only [List.append_assoc]
  rw [readLE32_chunk magic_len (by norm_num),
      readLE32_chunk (le32_len _) (by norm_num)]
  simpa using readLE32_le32 _ _

theorem hdrV3_os_field (a : BootArgsV3) :
    readLE32 (headerFieldsV3 a) 16 =
      ((a.os_version <<< 11) ||| a.os_patch_level) % 2 ^ 32 := by
  rw [headerFieldsV3]
  simp only [List.append_assoc]
  rw [readLE32_chunk magic_len (by norm_num),
      readLE32_chunk (le32_len _) (by norm_num),
      readLE32_chunk (le32_len _) (by norm_num)]
  simpa using readLE32_le32 _ _

theorem hdrV3_header_version (a : BootArgsV3) :
    readLE32 (headerFieldsV3 a) 40 = a.header_version % 2 ^ 32 := by
  rw [headerFieldsV3]
  simp only [List.append_assoc]
  rw [readLE32_chunk magic_len (by norm_num),
      readLE32_chunk (le32_len _) (by norm_num),
      readLE32_chunk (le32_len _) (by norm_num),
      readLE32_chunk (le32_len _) (by norm_num),
      readLE32_chunk (le32_len _) (by norm_num),
      readLE32_chunk (le32_len _) (by norm_num),
      readLE32_chunk (le32_len _) (by norm_num),
      readLE32_chunk (le32_len _) (by norm_num),
      readLE32_chunk (le32_len _) (by norm_num)]
  simpa using readLE32_le32 _ _

theorem hdrV3_cmdline (a : BootArgsV3) :
    readBytes (headerFieldsV3 a) 44 1536 = packStr 1536 a.cmdline := by
  rw [headerFieldsV3]
  simp only [List.append_assoc]
  rw [readBytes_chunk magic_len (by norm_num),
      readBytes_chunk (le32_len _) (by norm_num),
      readBytes_chunk (le32_len _) (by norm_num),
      readBytes_chunk (le32_len _) (by norm_num),
      readBytes_chunk (le32_len _) (by norm_num),
      readBytes_chunk (le32_len _) (by norm_num),
      readBytes_chunk (le32_len _) (by norm_num),
      readBytes_chunk (le32_len _) (by norm_num),
      readBytes_chunk (le32_len _) (by norm_num),
      readBytes_chunk (le32_len _) (by norm_num)]
  simpa using readBytes_all (packStr_length 1536 a.cmdline)

theorem encodeBootV3_kernel_extract (a : BootArgsV3) :
    readBytes (encodeBootV3 a) 4096 a.kernel.length = a.kernel := by
  have h1 := write_header_v3_length a
  have hX := encodeBootV3_kernel_stage_length a
  have hXge : 4096 + a.kernel.length ≤
      (padTo 4096 (write_header_v3 a ++ a.kernel)).length := by
    rw [hX, Nat.mul_add, Nat.mul_one]
    have := le_mul_pages 4096 a.kernel.length (by norm_num)
    omega
  unfold encodeBootV3 write_padded_file
  rw [padTo, readBytes_append_inner (by simp; omega),
      readBytes_append_inner hXge,
      padTo, readBytes_append_inner (by simp [h1]),
      readBytes_chunk h1 (by norm_num)]
  simpa using readBytes_all (rfl : a.kernel.length = a.kernel.length)

theorem encodeBootV3_ramdisk_extract (a : BootArgsV3) :
    readBytes (encodeBootV3 a)
      (4096 * (1 + get_number_of_pages a.kernel.length 4096))
      a.ramdisk.length = a.ramdisk := by
  have hX := encodeBootV3_kernel_stage_length a
  unfold encodeBootV3 write_padded_file
  rw [padTo, readBytes_append_inner (by simp; omega),
      readBytes_chunk hX (le_refl _)]
  simpa using readBytes_all (rfl : a.ramdisk.length = a.ramdisk.length)

/-- The packed 32-bit os field splits back into its version half. -/
theorem os_field_split_hi (osv p : Nat) (hosv : osv < 2 ^ 21)
    (hp : p < 2 ^ 11) : ((osv <<< 11 ||| p) % 2 ^ 32) >>> 11 = osv := by
  rw [lor_shift _ _ _ hp, Nat.shiftLeft_eq]
  have hlt : osv * 2 ^ 11 + p < 2 ^ 32 := by nlinarith
  rw [Nat.mod_eq_of_lt hlt, Nat.shiftRight_eq_div_pow, Nat.mul_comm,
      Nat.mul_add_div (by norm_num), Nat.div_eq_of_lt hp, Nat.add_zero]

/-- The packed 32-bit os field splits back into its patch-level half. -/
theorem os_field_split_lo (osv p : Nat) (hosv : osv < 2 ^ 21)
    (hp : p < 2 ^ 11) :
    (osv <<< 11 ||| p) % 2 ^ 32 &&& (1 <<< 11 - 1) = p := by
  rw [lor_shift _ _ _ hp, Nat.shiftLeft_eq]
  have hlt : osv * 2 ^ 11 + p < 2 ^ 32 := by nlinarith
  rw [Nat.mod_eq_of_lt hlt, Nat.shiftLeft_eq, Nat.one_mul,
      Nat.and_pow_two_sub_one_eq_mod, Nat.mul_comm, Nat.mul_add_mod,
      Nat.mod_eq_of_lt hp]

/-- Printing then re-parsing the `a.b.c` os-version string is lossless
for 21-bit values. -/
theorem parse_format_os_version (v : Nat) (h : v < 2 ^ 21) :
    parse_os_version (format_os_version v) = some v := by
  unfold parse_os_version format_os_version
  have h1 : v >>> 14 < 128 := by
    rw [Nat.shiftRight_eq_div_pow]
    omega
  have h2 : v >>> 7 &&& (1 <<< 7 - 1) < 128 := by
    rw [Nat.shiftLeft_eq, Nat.one_mul, Nat.and_pow_two_sub_one_eq_mod]
    have := Nat.mod_lt (v >>> 7) (show 0 < 2 ^ 7 by norm_num)
    omega
  have h3 : v &&& (1 <<< 7 - 1) < 128 := by
    rw [Nat.shiftLeft_eq, Nat.one_mul, Nat.and_pow_two_sub_one_eq_mod]
    have := Nat.mod_lt v (show 0 < 2 ^ 7 by norm_num)
    omega
  rw [if_pos ⟨h1, h2, h3⟩]
  congr 1
  rw [lor_shift _ _ _ (by rw [Nat.shiftLeft_eq]; omega :
        (v >>> 7 &&& (1 <<< 7 - 1)) <<< 7 < 2 ^ 14)]
  rw [show (v >>> 14) <<< 14 + (v >>> 7 &&& (1 <<< 7 - 1)) <<< 7 =
        ((v >>> 14) <<< 7 + (v >>> 7 &&& (1 <<< 7 - 1))) <<< 7 by
      simp [Nat.shiftLeft_eq]; ring]
  rw [lor_shift _ _ _ (by
      rw [Nat.shiftLeft_eq, Nat.one_mul, Nat.and_pow_two_sub_one_eq_mod]
      have := Nat.mod_lt v (show 0 < 2 ^ 7 by norm_num)
      omega : v &&& (1 <<< 7 - 1) < 2 ^ 7)]
  simp only [Nat.shiftLeft_eq, Nat.shiftRight_eq_div_pow, Nat.one_mul,
    Nat.and_pow_two_sub_one_eq_mod]
  have e1 := Nat.div_add_mod v (2 ^ 7)
  have e2 := Nat.div_add_mod (v / 2 ^ 7) (2 ^ 7)
  have e3 : v / 2 ^ 14 = v / 2 ^ 7 / 2 ^ 7 := by
    rw [Nat.div_div_eq_div_mul]
    norm_num
  rw [e3]
  norm_num at e1 e2 ⊢
  omega

/-- Printing then re-parsing the `YYYY-MM` patch-level string is
lossless for 11-bit values whose month component is in `1..12`. -/
theorem parse_format_os_patch_level (p : Nat) (h : p < 2 ^ 11)
    (hm1 : 0 < p % 16) (hm2 : p % 16 ≤ 12) :
    parse_os_patch_level (format_os_patch_level p) = some p := by
  unfold parse_os_patch_level format_os_patch_level
  have hmask : p &&& (1 <<< 4 - 1) = p % 16 := by
    rw [Nat.shiftLeft_eq, Nat.one_mul, Nat.and_pow_two_sub_one_eq_mod]
  have hy : p >>> 4 < 128 := by
    rw [Nat.shiftRight_eq_div_pow]
    omega
  rw [hmask]
  rw [if_pos ⟨by omega, by omega, hm1, hm2⟩]
  congr 1
  rw [show p >>> 4 + 2000 - 2000 = p >>> 4 by omega]
  rw [lor_shift _ _ _ (by omega : p % 16 < 2 ^ 4)]
  rw [Nat.shiftLeft_eq, Nat.shiftRight_eq_div_pow]
  have := Nat.div_add_mod p 16
  norm_num
  omega

/-- Decoding an encoded v3/v4 boot image recovers the metadata record
and the segment bytes. -/
theorem unpackBootV3_encodeBootV3 (a : BootArgsV3)
    (hk : a.kernel.length < 2 ^ 32) (hr : a.ramdisk.length < 2 ^ 32)
    (hv : a.header_version < 2 ^ 32)
    (hosv : a.os_version < 2 ^ 21) (hpatch : a.os_patch_level < 2 ^ 11)
    (hcl : a.cmdline.length ≤ 1536) (hcnul : ∀ b ∈ a.cmdline, b ≠ 0) :
    unpackBootV3 (encodeBootV3 a) =
      { meta := { header_version := a.header_version
                  os_version_field := format_os_version a.os_version
                  os_patch_level_field :=
                    format_os_patch_level a.os_patch_level
                  cmdline := a.cmdline }
        kernel := a.kernel
        ramdisk := a.ramdisk } := by
  have e8 := (encodeBootV3_read_header a
    (show 8 + 4 ≤ 1580 by norm_num)).trans (hdrV3_kernel_size a)
  have e12 := (encodeBootV3_read_header a
    (show 12 + 4 ≤ 1580 by norm_num)).trans (hdrV3_ramdisk_size a)
  have e16 := (encodeBootV3_read_header a
    (show 16 + 4 ≤ 1580 by norm_num)).trans (hdrV3_os_field a)
  have e40 := (encodeBootV3_read_header a
    (show 40 + 4 ≤ 1580 by norm_num)).trans (hdrV3_header_version a)
  have e44 := (encodeBootV3_read_header_bytes a
    (show 44 + 1536 ≤ 1580 by norm_num)).trans (hdrV3_cmdline a)
  simp only [unpackBootV3, e8, e12, e16, e40, e44]
  rw [Nat.mod_eq_of_lt hk, Nat.mod_eq_of_lt hr, Nat.mod_eq_of_lt hv,
      os_field_split_hi _ _ hosv hpatch, os_field_split_lo _ _ hosv hpatch,
      cstr_packStr hcnul hcl]
  simp only [BOOT_IMAGE_HEADER_V3_PAGESIZE, Nat.mul_one]
  rw [encodeBootV3_kernel_extract a, encodeBootV3_ramdisk_extract a]

/-- Repacking an encoded v3/v4 boot image from its decoded record and
extracted segments recovers the original encoder arguments, provided
the stored patch-level month is in `1..12` (otherwise the re-parse
fails its assertion). -/
theorem rebuildBootArgsV3_encodeBootV3 (a : BootArgsV3)
    (hk : a.kernel.length < 2 ^ 32) (hr : a.ramdisk.length < 2 ^ 32)
    (hv : a.header_version < 2 ^ 32)
    (hosv : a.os_version < 2 ^ 21) (hpatch : a.os_patch_level < 2 ^ 11)
    (hcl : a.cmdline.length ≤ 1536) (hcnul : ∀ b ∈ a.cmdline, b ≠ 0)
    (hm1 : 0 < a.os_patch_level % 16) (hm2 : a.os_patch_level % 16 ≤ 12) :
    rebuildBootArgsV3 (unpackBootV3 (encodeBootV3 a)) = some a := by
  rw [unpackBootV3_encodeBootV3 a hk hr hv hosv hpatch hcl hcnul]
  unfold rebuildBootArgsV3
  rw [parse_format_os_version _ hosv,
      parse_format_os_patch_level _ hpatch hm1 hm2]
  simp only [Option.bind_eq_bind, Option.some_bind]
  rw [if_neg (by simp; omega)]

theorem le32_mod (x : Nat) : le32 (x % 2 ^ 32) = le32 x := by
  simp only [le32, List.cons.injEq, and_true]
  refine ⟨by omega, by omega, by omega, by omega⟩

theorem le64_mod (x : Nat) : le64 (x % 2 ^ 64) = le64 x := by
  simp only [le64, List.cons.injEq, and_true]
  refine ⟨by omega, by omega, by omega, by omega, by omega, by omega,
    by omega, by omega⟩

theorem pages_mul_add (p m n : Nat) (hp : 0 < p) :
    get_number_of_pages (p * m + n) p = m + get_number_of_pages n p := by
  induction m with
  | zero => simp
  | succ i ih =>
    rw [show p * (i + 1) + n = p + (p * i + n) by ring,
        pages_page_add _ _ hp, ih]
    omega

/-! ### Properties of the vendor-boot codec -/

theorem vendorHeaderFields_length_v3 (a : VendorBootArgs)
    (ts en : Nat) (h3 : ¬ 3 < a.header_version) :
    (vendorHeaderFields a ts en).length = 2112 := by
  rw [vendorHeaderFields, if_neg h3, if_neg h3, if_neg h3]
  simp [packStr_length, le32, le64, VENDOR_BOOT_MAGIC]

theorem vendorHeaderFields_length_v4 (a : VendorBootArgs)
    (ts en : Nat) (h4 : 3 < a.header_version) :
    (vendorHeaderFields a ts en).length = 2128 := by
  rw [vendorHeaderFields, if_pos h4, if_pos h4, if_pos h4]
  simp [packStr_length, le32, le64, VENDOR_BOOT_MAGIC]

/-- On the v3 vendor-boot pipeline, `encodeVendorBoot` succeeds and
produces the header followed by the two data segments. -/
theorem encodeVendorBoot_v3_ok (a : VendorBootArgs) (vr : List Nat)
    (h3 : a.header_version = 3) (hvr : a.vendor_ramdisk = some vr)
    (hdtb : a.dtb ≠ []) :
    encodeVendorBoot a [] = .ok (write_vendor_boot_data_v3 a
      (padTo a.pagesize (vendorHeaderFields a 0 0))) := by
  unfold encodeVendorBoot
  rw [if_neg (by omega), if_neg (by simp [h3]), if_neg (by simp [hvr])]
  unfold write_vendor_boot_header
  rw [if_neg (by simpa using hdtb)]
  rfl

/-- Header-region reads of a v3 vendor-boot container penetrate the
padding and data appends down to the raw header fields. -/
theorem vendorV3_read_header (a : VendorBootArgs)
    (h3 : ¬ 3 < a.header_version) {off : Nat} (h : off + 4 ≤ 2112) :
    readLE32 (write_vendor_boot_data_v3 a
        (padTo a.pagesize (vendorHeaderFields a 0 0))) off =
      readLE32 (vendorHeaderFields a 0 0) off := by
  have hflen := vendorHeaderFields_length_v3 a 0 0 h3
  have hge : 2112 ≤ (padTo a.pagesize (vendorHeaderFields a 0 0)).length :=
    le_trans (le_of_eq hflen.symm) (le_length_padTo _ _)
  unfold write_vendor_boot_data_v3 write_padded_file
  rw [padTo, readLE32_append_inner (by
        simp only [List.length_append]
        have := le_length_padTo a.pagesize
          (padTo a.pagesize (vendorHeaderFields a 0 0) ++
            a.vendor_ramdisk.getD [])
        simp only [List.length_append] at this
        omega),
      readLE32_append_inner (by
        have := le_length_padTo a.pagesize
          (padTo a.pagesize (vendorHeaderFields a 0 0) ++
            a.vendor_ramdisk.getD [])
        simp only [List.length_append] at this
        omega),
      padTo, readLE32_append_inner (by simp only [List.length_append]; omega),
      readLE32_append_inner (by omega),
      padTo, readLE32_append_inner (by omega)]

theorem vendorV3_read_header64 (a : VendorBootArgs)
    (h3 : ¬ 3 < a.header_version) {off : Nat} (h : off + 8 ≤ 2112) :
    readLE64 (write_vendor_boot_data_v3 a
        (padTo a.pagesize (vendorHeaderFields a 0 0))) off =
      readLE64 (vendorHeaderFields a 0 0) off := by
  have hflen := vendorHeaderFields_length_v3 a 0 0 h3
  have hge : 2112 ≤ (padTo a.pagesize (vendorHeaderFields a 0 0)).length :=
    le_trans (le_of_eq hflen.symm) (le_length_padTo _ _)
  unfold write_vendor_boot_data_v3 write_padded_file
  rw [padTo, readLE64_append_inner (by
        simp only [List.length_append]
        have := le_length_padTo a.pagesize
          (padTo a.pagesize (vendorHeaderFields a 0 0) ++
            a.vendor_ramdisk.getD [])
        simp only [List.length_append] at this
        omega),
      readLE64_append_inner (by
        have := le_length_padTo a.pagesize
          (padTo a.pagesize (vendorHeaderFields a 0 0) ++
            a.vendor_ramdisk.getD [])
        simp only [List.length_append] at this
        omega),
      padTo, readLE64_append_inner (by simp only [List.length_append]; omega),
      readLE64_append_inner (by omega),
      padTo, readLE64_append_inner (by omega)]

theorem vendorV3_read_header_bytes (a : VendorBootArgs)
    (h3 : ¬ 3 < a.header_version) {off n : Nat} (h : off + n ≤ 2112) :
    readBytes (write_vendor_boot_data_v3 a
        (padTo a.pagesize (vendorHeaderFields a 0 0))) off n =
      readBytes (vendorHeaderFields a 0 0) off n := by
  have hflen := vendorHeaderFields_length_v3 a 0 0 h3
  have hge : 2112 ≤ (padTo a.pagesize (vendorHeaderFields a 0 0)).length :=
    le_trans (le_of_eq hflen.symm) (le_length_padTo _ _)
  unfold write_vendor_boot_data_v3 write_padded_file
  rw [padTo, readBytes_append_inner (by
        simp only [List.length_append]
        have := le_length_padTo a.pagesize
          (padTo a.pagesize (vendorHeaderFields a 0 0) ++
            a.vendor_ramdisk.getD [])
        simp only [List.length_append] at this
        omega),
      readBytes_append_inner (by
        have := le_length_padTo a.pagesize
          (padTo a.pagesize (vendorHeaderFields a 0 0) ++
            a.vendor_ramdisk.getD [])
        simp only [List.length_append] at this
        omega),
      padTo, readBytes_append_inner (by simp only [List.length_append]; omega),
      readBytes_append_inner (by omega),
      padTo, readBytes_append_inner (by omega)]

/-- The v3 shape of the vendor-boot header fields. -/
theorem vendorHeaderFieldsV3_eq (a : VendorBootArgs) (ts en : Nat)
    (h3 : ¬ 3 < a.header_version) :
    vendorHeaderFields a ts en =
      packStr 8 VENDOR_BOOT_MAGIC ++ le32 a.header_version ++
      le32 a.pagesize ++ le32 (a.base + a.kernel_offset) ++
      le32 (a.base + a.ramdisk_offset) ++ le32 (vrSize a) ++
      packStr 2048 a.vendor_cmdline ++ le32 (a.base + a.tags_offset) ++
      packStr 16 a.board ++ le32 VENDOR_BOOT_IMAGE_HEADER_V3_SIZE ++
      le32 a.dtb.length ++ le64 (a.base + a.dtb_offset) := by
  rw [vendorHeaderFields, if_neg h3, if_neg h3, if_neg h3, List.append_nil]

theorem vmagic_len : (packStr 8 VENDOR_BOOT_MAGIC).length = 8 := rfl

theorem vndV3_header_version (a : VendorBootArgs) (ts en : Nat)
    (h3 : ¬ 3 < a.header_version) :
    readLE32 (vendorHeaderFields a ts en) 8 = a.header_version % 2 ^ 32 := by
  rw [vendorHeaderFieldsV3_eq a ts en h3]
  simp only [List.append_assoc]
  rw [readLE32_chunk vmagic_len (by norm_num)]
  simpa using readLE32_le32 _ _

theorem vndV3_pagesize (a : VendorBootArgs) (ts en : Nat)
    (h3 : ¬ 3 < a.header_version) :
    readLE32 (vendorHeaderFields a ts en) 12 = a.pagesize % 2 ^ 32 := by
  rw [vendorHeaderFieldsV3_eq a ts en h3]
  simp only [List.append_assoc]
  rw [readLE32_chunk vmagic_len (by norm_num),
      readLE32_chunk (le32_len _) (by norm_num)]
  simpa using readLE32_le32 _ _

theorem vndV3_kernel_addr (a : VendorBootArgs) (ts en : Nat)
    (h3 : ¬ 3 < a.header_version) :
    readLE32 (vendorHeaderFields a ts en) 16 =
      (a.base + a.kernel_offset) % 2 ^ 32 := by
  rw [vendorHeaderFieldsV3_eq a ts en h3]
  simp only [List.append_assoc]
  rw [readLE32_chunk vmagic_len (by norm_num),
      readLE32_chunk (le32_len _) (by norm_num),
      readLE32_chunk (le32_len _) (by norm_num)]
  simpa using readLE32_le32 _ _

theorem vndV3_ramdisk_addr (a : VendorBootArgs) (ts en : Nat)
    (h3 : ¬ 3 < a.header_version) :
    readLE32 (vendorHeaderFields a ts en) 20 =
      (a.base + a.ramdisk_offset) % 2 ^ 32 := by
  rw [vendorHeaderFieldsV3_eq a ts en h3]
  simp only [List.append_assoc]
  rw [readLE32_chunk vmagic_len (by norm_num),
      readLE32_chunk (le32_len _) (by norm_num),
      readLE32_chunk (le32_len _) (by norm_num),
      readLE32_chunk (le32_len _) (by norm_num)]
  simpa using readLE32_le32 _ _

theorem vndV3_ramdisk_size (a : VendorBootArgs) (ts en : Nat)
    (h3 : ¬ 3 < a.header_version) :
    readLE32 (vendorHeaderFields a ts en) 24 = vrSize a % 2 ^ 32 := by
  rw [vendorHeaderFieldsV3_eq a ts en h3]
  simp only [List.append_assoc]
  rw [readLE32_chunk vmagic_len (by norm_num),
      readLE32_chunk (le32_len _) (by norm_num),
      readLE32_chunk (le32_len _) (by norm_num),
      readLE32_chunk (le32_len _) (by norm_num),
      readLE32_chunk (le32_len _) (by norm_num)]
  simpa using readLE32_le32 _ _

theorem vndV3_cmdline (a : VendorBootArgs) (ts en : Nat)
    (h3 : ¬ 3 < a.header_version) :
    readBytes (vendorHeaderFields a ts en) 28 2048 =
      packStr 2048 a.vendor_cmdline := by
  rw [vendorHeaderFieldsV3_eq a ts en h3]
  simp only [List.append_assoc]
  rw [readBytes_chunk vmagic_len (by norm_num),
      readBytes_chunk (le32_len _) (by norm_num),
      readBytes_chunk (le32_len _) (by norm_num),
      readBytes_chunk (le32_len _) (by norm_num),
      readBytes_chunk (le32_len _) (by norm_num),
      readBytes_chunk (le32_len _) (by norm_num)]
  simpa using readBytes_packStr_self

theorem vndV3_tags_addr (a : VendorBootArgs) (ts en : Nat)
    (h3 : ¬ 3 < a.header_version) :
    readLE32 (vendorHeaderFields a ts en) 2076 =
      (a.base + a.tags_offset) % 2 ^ 32 := by
  rw [vendorHeaderFieldsV3_eq a ts en h3]
  simp only [List.append_assoc]
  rw [readLE32_chunk vmagic_len (by norm_num),
      readLE32_chunk (le32_len _) (by norm_num),
      readLE32_chunk (le32_len _) (by norm_num),
      readLE32_chunk (le32_len _) (by norm_num),
      readLE32_chunk (le32_len _) (by norm_num),
      readLE32_chunk (le32_len _) (by norm_num),
      readLE32_chunk (packStr_length 2048 a.vendor_cmdline) (by norm_num)]
  simpa using readLE32_le32 _ _

theorem vndV3_board (a : VendorBootArgs) (ts en : Nat)
    (h3 : ¬ 3 < a.header_version) :
    readBytes (vendorHeaderFields a ts en) 2080 16 =
      packStr 16 a.board := by
  rw [vendorHeaderFieldsV3_eq a ts en h3]
  simp only [List.append_assoc]
  rw [readBytes_chunk vmagic_len (by norm_num),
      readBytes_chunk (le32_len _) (by norm_num),
      readBytes_chunk (le32_len _) (by norm_num),
      readBytes_chunk (le32_len _) (by norm_num),
      readBytes_chunk (le32_len _) (by norm_num),
      readBytes_chunk (le32_len _) (by norm_num),
      readBytes_chunk (packStr_length 2048 a.vendor_cmdline) (by norm_num),
      readBytes_chunk (le32_len _) (by norm_num)]
  simpa using readBytes_packStr_self

theorem vndV3_header_size (a : VendorBootArgs) (ts en : Nat)
    (h3 : ¬ 3 < a.header_version) :
    readLE32 (vendorHeaderFields a ts en) 2096 = 2112 := by
  rw [vendorHeaderFieldsV3_eq a ts en h3]
  simp only [List.append_assoc]
  rw [readLE32_chunk vmagic_len (by norm_num),
      readLE32_chunk (le32_len _) (by norm_num),
      readLE32_chunk (le32_len _) (by norm_num),
      readLE32_chunk (le32_len _) (by norm_num),
      readLE32_chunk (le32_len _) (by norm_num),
      readLE32_chunk (le32_len _) (by norm_num),
      readLE32_chunk (packStr_length 2048 a.vendor_cmdline) (by norm_num),
      readLE32_chunk (le32_len _) (by norm_num),
      readLE32_chunk (packStr_length 16 a.board) (by norm_num)]
  have := readLE32_le32 VENDOR_BOOT_IMAGE_HEADER_V3_SIZE
    (le32 a.dtb.length ++ le64 (a.base + a.dtb_offset))
  simpa [VENDOR_BOOT_IMAGE_HEADER_V3_SIZE] using this

theorem vndV3_dtb_size (a : VendorBootArgs) (ts en : Nat)
    (h3 : ¬ 3 < a.header_version) :
    readLE32 (vendorHeaderFields a ts en) 2100 = a.dtb.length % 2 ^ 32 := by
  rw [vendorHeaderFieldsV3_eq a ts en h3]
  simp only [List.append_assoc]
  rw [readLE32_chunk vmagic_len (by norm_num),
      readLE32_chunk (le32_len _) (by norm_num),
      readLE32_chunk (le32_len _) (by norm_num),
      readLE32_chunk (le32_len _) (by norm_num),
      readLE32_chunk (le32_len _) (by norm_num),
      readLE32_chunk (le32_len _) (by norm_num),
      readLE32_chunk (packStr_length 2048 a.vendor_cmdline) (by norm_num),
      readLE32_chunk (le32_len _) (by norm_num),
      readLE32_chunk (packStr_length 16 a.board) (by norm_num),
      readLE32_chunk (le32_len _) (by norm_num)]
  simpa using readLE32_le32 _ _

theorem vndV3_dtb_addr (a : VendorBootArgs) (ts en : Nat)
    (h3 : ¬ 3 < a.header_version) :
    readLE64 (vendorHeaderFields a ts en) 2104 =
      (a.base + a.dtb_offset) % 2 ^ 64 := by
  rw [vendorHeaderFieldsV3_eq a ts en h3]
  simp only [List.append_assoc]
  rw [readLE64_chunk vmagic_len (by norm_num),
      readLE64_chunk (le32_len _) (by norm_num),
      readLE64_chunk (le32_len _) (by norm_num),
      readLE64_chunk (le32_len _) (by norm_num),
      readLE64_chunk (le32_len _) (by norm_num),
      readLE64_chunk (le32_len _) (by norm_num),
      readLE64_chunk (packStr_length 2048 a.vendor_cmdline) (by norm_num),
      readLE64_chunk (le32_len _) (by norm_num),
      readLE64_chunk (packStr_length 16 a.board) (by norm_num),
      readLE64_chunk (le32_len _) (by norm_num),
      readLE64_chunk (le32_len _) (by norm_num)]
  have : readLE64 (le64 (a.base + a.dtb_offset)) 0 =
      (a.base + a.dtb_offset) % 2 ^ 64 := by
    simpa using readLE64_le64 (a.base + a.dtb_offset) []
  simpa using this

theorem vendorV3_header_stage_length (a : VendorBootArgs) (k : Nat)
    (hp : a.pagesize = 2 ^ k) (h3 : ¬ 3 < a.header_version) :
    (padTo a.pagesize (vendorHeaderFields a 0 0)).length =
      a.pagesize * get_number_of_pages 2112 a.pagesize := by
  rw [hp, padTo_length, vendorHeaderFields_length_v3 a 0 0 h3]

theorem vendorV3_ramdisk_stage_length (a : VendorBootArgs) (vr : List Nat)
    (k : Nat) (hp : a.pagesize = 2 ^ k) (h3 : ¬ 3 < a.header_version) :
    (padTo a.pagesize (padTo a.pagesize (vendorHeaderFields a 0 0) ++
        vr)).length =
      a.pagesize * (get_number_of_pages 2112 a.pagesize +
        get_number_of_pages vr.length a.pagesize) := by
  have h1 := vendorV3_header_stage_length a k hp h3
  rw [hp] at h1 ⊢
  rw [padTo_length, List.length_append, h1,
      pages_mul_add _ _ _ (Nat.pos_pow_of_pos k (by norm_num))]

theorem vendorV3_extract_ramdisk (a : VendorBootArgs) (vr : List Nat)
    (k : Nat) (hp : a.pagesize = 2 ^ k) (h3 : ¬ 3 < a.header_version)
    (hvr : a.vendor_ramdisk = some vr) :
    readBytes (write_vendor_boot_data_v3 a
        (padTo a.pagesize (vendorHeaderFields a 0 0)))
      (a.pagesize * get_number_of_pages 2112 a.pagesize) vr.length = vr := by
  have hlen := vendorV3_header_stage_length a k hp h3
  unfold write_vendor_boot_data_v3 write_padded_file
  rw [hvr]
  simp only [Option.getD_some]
  rw [padTo, readBytes_append_inner (by
        simp only [List.length_append]
        have h2 := le_length_padTo a.pagesize
          (padTo a.pagesize (vendorHeaderFields a 0 0) ++ vr)
        simp only [List.length_append] at h2
        omega),
      readBytes_append_inner (by
        have h2 := le_length_padTo a.pagesize
          (padTo a.pagesize (vendorHeaderFields a 0 0) ++ vr)
        simp only [List.length_append] at h2
        omega),
      padTo, readBytes_append_inner (by simp only [List.length_append]; omega),
      readBytes_chunk hlen (le_refl _)]
  simpa using readBytes_all (rfl : vr.length = vr.length)

theorem vendorV3_extract_dtb (a : VendorBootArgs) (vr : List Nat)
    (k : Nat) (hp : a.pagesize = 2 ^ k) (h3 : ¬ 3 < a.header_version)
    (hvr : a.vendor_ramdisk = some vr) :
    readBytes (write_vendor_boot_data_v3 a
        (padTo a.pagesize (vendorHeaderFields a 0 0)))
      (a.pagesize * (get_number_of_pages 2112 a.pagesize +
        get_number_of_pages vr.length a.pagesize)) a.dtb.length = a.dtb := by
  have hY := vendorV3_ramdisk_stage_length a vr k hp h3
  unfold write_vendor_boot_data_v3 write_padded_file
  rw [hvr]
  simp only [Option.getD_some]
  rw [padTo, readBytes_append_inner (by simp only [List.length_append]; omega),
      readBytes_chunk hY (le_refl _)]
  simpa using readBytes_all (rfl : a.dtb.length = a.dtb.length)

/-- Decoding an encoded v3 vendor-boot container recovers the metadata
record (addresses reduced to their stored 32/64-bit values, `base`
reset to 0 as the decoder does). -/
theorem unpackVendorBootMeta_encode (a : VendorBootArgs)
    (h3 : a.header_version = 3)
    (hcl : a.vendor_cmdline.length ≤ 2048)
    (hcnul : ∀ b ∈ a.vendor_cmdline, b ≠ 0)
    (hbl : a.board.length ≤ 16) (hbnul : ∀ b ∈ a.board, b ≠ 0) :
    unpackVendorBootMeta (write_vendor_boot_data_v3 a
        (padTo a.pagesize (vendorHeaderFields a 0 0))) =
      { header_version := a.header_version % 2 ^ 32
        pagesize := a.pagesize % 2 ^ 32
        base := 0
        kernel_offset := (a.base + a.kernel_offset) % 2 ^ 32
        ramdisk_offset := (a.base + a.ramdisk_offset) % 2 ^ 32
        tags_offset := (a.base + a.tags_offset) % 2 ^ 32
        dtb_offset := (a.base + a.dtb_offset) % 2 ^ 64
        vendor_cmdline := a.vendor_cmdline
        board := a.board } := by
  have h3' : ¬ 3 < a.header_version := by omega
  unfold unpackVendorBootMeta
  rw [vendorV3_read_header a h3' (by norm_num),
      vendorV3_read_header a h3' (by norm_num),
      vendorV3_read_header a h3' (by norm_num),
      vendorV3_read_header a h3' (by norm_num),
      vendorV3_read_header a h3' (by norm_num),
      vendorV3_read_header64 a h3' (by norm_num),
      vendorV3_read_header_bytes a h3' (show 28 + 2048 ≤ 2112 by norm_num),
      vendorV3_read_header_bytes a h3' (show 2080 + 16 ≤ 2112 by norm_num),
      vndV3_header_version a 0 0 h3', vndV3_pagesize a 0 0 h3',
      vndV3_kernel_addr a 0 0 h3', vndV3_ramdisk_addr a 0 0 h3',
      vndV3_tags_addr a 0 0 h3', vndV3_dtb_addr a 0 0 h3',
      vndV3_cmdline a 0 0 h3', vndV3_board a 0 0 h3',
      cstr_packStr hcnul hcl, cstr_packStr hbnul hbl]

/-- The extraction list a decoded, encoder-produced v3 vendor-boot
container yields: the vendor ramdisk region and the dtb, at derived
page-aligned offsets. -/
theorem unpackVendorBootInfos_encode_v3 (a : VendorBootArgs)
    (vr : List Nat) (k : Nat)
    (hp : a.pagesize = 2 ^ k) (hk2 : k ≤ 14)
    (h3 : a.header_version = 3) (hvr : a.vendor_ramdisk = some vr)
    (hvrlen : vr.length < 2 ^ 32) (hdtblen : a.dtb.length < 2 ^ 32) :
    unpackVendorBootInfos (write_vendor_boot_data_v3 a
        (padTo a.pagesize (vendorHeaderFields a 0 0))) =
      [{ name := "vendor_ramdisk"
         offset := a.pagesize * get_number_of_pages 2112 a.pagesize
         size := vr.length },
       { name := "dtb"
         offset := a.pagesize * (get_number_of_pages 2112 a.pagesize +
           get_number_of_pages vr.length a.pagesize)
         size := a.dtb.length }] := by
  have h3' : ¬ 3 < a.header_version := by omega
  have hplt : a.pagesize < 2 ^ 32 := by
    rw [hp]
    calc (2 : Nat) ^ k ≤ 2 ^ 14 := Nat.pow_le_pow_right (by norm_num) hk2
    _ < 2 ^ 32 := by norm_num
  have hvs : vrSize a = vr.length := by rw [vrSize, hvr, Option.getD_some]
  unfold unpackVendorBootInfos
  rw [vendorV3_read_header a h3' (by norm_num),
      vendorV3_read_header a h3' (by norm_num),
      vendorV3_read_header a h3' (by norm_num),
      vendorV3_read_header a h3' (by norm_num),
      vendorV3_read_header a h3' (by norm_num),
      vndV3_header_version a 0 0 h3', vndV3_pagesize a 0 0 h3',
      vndV3_ramdisk_size a 0 0 h3', vndV3_header_size a 0 0 h3',
      vndV3_dtb_size a 0 0 h3',
      hvs, h3, Nat.mod_eq_of_lt hplt,
      Nat.mod_eq_of_lt hvrlen, Nat.mod_eq_of_lt hdtblen]
  norm_num

/-- Extracting both v3 vendor-boot segments returns the original file
bytes verbatim. -/
theorem extractFiles_encode_v3 (a : VendorBootArgs) (vr : List Nat)
    (k : Nat) (hp : a.pagesize = 2 ^ k) (hk2 : k ≤ 14)
    (h3 : a.header_version = 3) (hvr : a.vendor_ramdisk = some vr)
    (hvrlen : vr.length < 2 ^ 32) (hdtblen : a.dtb.length < 2 ^ 32) :
    extractFiles (write_vendor_boot_data_v3 a
        (padTo a.pagesize (vendorHeaderFields a 0 0)))
      (unpackVendorBootInfos (write_vendor_boot_data_v3 a
        (padTo a.pagesize (vendorHeaderFields a 0 0)))) =
      [("vendor_ramdisk", vr), ("dtb", a.dtb)] := by
  have h3' : ¬ 3 < a.header_version := by omega
  rw [unpackVendorBootInfos_encode_v3 a vr k hp hk2 h3 hvr hvrlen hdtblen]
  unfold extractFiles
  simp only [List.map_cons, List.map_nil]
  rw [vendorV3_extract_ramdisk a vr k hp h3' hvr,
      vendorV3_extract_dtb a vr k hp h3' hvr]

/-- Re-encoding from the decoded vendor record and the two extracted
files reproduces the original v3 vendor-boot container bit-for-bit. -/
theorem vendorV3_rebuild_roundtrip (a : VendorBootArgs) (vr : List Nat)
    (k : Nat) (hp : a.pagesize = 2 ^ k) (hk1 : 11 ≤ k) (hk2 : k ≤ 14)
    (h3 : a.header_version = 3) (hvr : a.vendor_ramdisk = some vr)
    (hdtb : a.dtb ≠ [])
    (hcl : a.vendor_cmdline.length ≤ 2048)
    (hcnul : ∀ b ∈ a.vendor_cmdline, b ≠ 0)
    (hbl : a.board.length ≤ 16) (hbnul : ∀ b ∈ a.board, b ≠ 0) :
    (rebuildVendorArgsV3 (unpackVendorBootMeta (write_vendor_boot_data_v3 a
        (padTo a.pagesize (vendorHeaderFields a 0 0)))) vr a.dtb).map
      (fun a2 => encodeVendorBoot a2 []) =
    some (.ok (write_vendor_boot_data_v3 a
      (padTo a.pagesize (vendorHeaderFields a 0 0)))) := by
  have hplt : a.pagesize < 2 ^ 32 := by
    rw [hp]
    calc (2 : Nat) ^ k ≤ 2 ^ 14 := Nat.pow_le_pow_right (by norm_num) hk2
    _ < 2 ^ 32 := by norm_num
  rw [unpackVendorBootMeta_encode a h3 hcl hcnul hbl hbnul, h3,
      Nat.mod_eq_of_lt hplt]
  unfold rebuildVendorArgsV3
  rw [if_neg (by simp only []; omega),
      if_neg (by simp only []; omega),
      if_neg (not_not_intro (by
        simp only []
        rw [hp]
        have hk : k = 11 ∨ k = 12 ∨ k = 13 ∨ k = 14 := by omega
        rcases hk with h | h | h | h <;> rw [h] <;> norm_num))]
  simp only [Option.map_some']
  congr 1
  have h3n : (3 : Nat) % 2 ^ 32 = 3 := by norm_num
  rw [h3n]
  have hfe : vendorHeaderFields
      { dtb := a.dtb, vendor_ramdisk := some vr, vendor_bootconfig := [],
        vendor_cmdline := a.vendor_cmdline, board := a.board, base := 0,
        kernel_offset := (a.base + a.kernel_offset) % 2 ^ 32,
        ramdisk_offset := (a.base + a.ramdisk_offset) % 2 ^ 32,
        tags_offset := (a.base + a.tags_offset) % 2 ^ 32,
        dtb_offset := (a.base + a.dtb_offset) % 2 ^ 64,
        pagesize := a.pagesize, header_version := 3 } 0 0 =
      vendorHeaderFields a 0 0 := by
    rw [vendorHeaderFieldsV3_eq _ 0 0 (by simp),
        vendorHeaderFieldsV3_eq a 0 0 (by omega), h3]
    simp only [Nat.zero_add, le32_mod, le64_mod, vrSize, hvr,
      Option.getD_some]
  rw [encodeVendorBoot_v3_ok _ vr rfl rfl (by simpa using hdtb), hfe]
  unfold write_vendor_boot_data_v3 write_padded_file
  simp only [hvr, Option.getD_some]

/-- C1 counterexample: for the v3 boot image built with the default
os_patch_level 0, re-invoking the encoder with exactly the decoded
MetadataRecord fails (`parse_os_patch_level` asserts `0 < month`), so
no byte sequence equal to the original is produced. -/
theorem C1_counterexample :
    (rebuildBootArgsV3 (unpackBootV3 (encodeBootV3 cexC1))).map
      encodeBootV3 ≠ some (encodeBootV3 cexC1) := by
  rw [unpackBootV3_encodeBootV3 cexC1 (by norm_num [cexC1])
      (by norm_num [cexC1]) (by norm_num [cexC1]) (by norm_num [cexC1])
      (by norm_num [cexC1]) (by norm_num [cexC1])
      (by intro b hb; simp [cexC1] at hb)]
  have hsome : parse_os_version (format_os_version cexC1.os_version) =
      some cexC1.os_version := by decide
  have hnone : parse_os_patch_level
      (format_os_patch_level cexC1.os_patch_level) = none := by decide
  simp [rebuildBootArgsV3, hsome, hnone]

/-- C1 (amended): round-trip identity holds for boot images with
header_version 3 or 4 and for vendor-boot images with header_version 3,
whenever the os patch-level month stored in the image is in `1..12`
(the decoded record otherwise fails the encoder's re-parse); the
vendor-boot v4 MetadataRecord does not capture fragment metadata, so
the guarantee covers the vendor-boot v3 record.  Segment files are the
decoder's untouched extractions; re-encoding with the decoded record
reproduces the container byte-for-byte. -/
theorem C1_roundtrip :
    (∀ a : BootArgsV3,
      (a.header_version = 3 ∨ a.header_version = 4) →
      a.kernel.length < 2 ^ 32 → a.ramdisk.length < 2 ^ 32 →
      a.os_version < 2 ^ 21 → a.os_patch_level < 2 ^ 11 →
      0 < a.os_patch_level % 16 → a.os_patch_level % 16 ≤ 12 →
      a.cmdline.length ≤ 1536 → (∀ b ∈ a.cmdline, b ≠ 0) →
      (rebuildBootArgsV3 (unpackBootV3 (encodeBootV3 a))).map encodeBootV3 =
        some (encodeBootV3 a)) ∧
    (∀ (a : VendorBootArgs) (vr : List Nat) (k : Nat),
      a.pagesize = 2 ^ k → 11 ≤ k → k ≤ 14 →
      a.header_version = 3 → a.vendor_ramdisk = some vr → a.dtb ≠ [] →
      vr.length < 2 ^ 32 → a.dtb.length < 2 ^ 32 →
      a.vendor_cmdline.length ≤ 2048 → (∀ b ∈ a.vendor_cmdline, b ≠ 0) →
      a.board.length ≤ 16 → (∀ b ∈ a.board, b ≠ 0) →
      ∃ X, encodeVendorBoot a [] = .ok X ∧
        extractFiles X (unpackVendorBootInfos X) =
          [("vendor_ramdisk", vr), ("dtb", a.dtb)] ∧
        (rebuildVendorArgsV3 (unpackVendorBootMeta X) vr a.dtb).map
          (fun a2 => encodeVendorBoot a2 []) = some (.ok X)) := by
  constructor
  · intro a hv hk hr hosv hpatch hm1 hm2 hcl hcnul
    rw [rebuildBootArgsV3_encodeBootV3 a hk hr
        (by rcases hv with h | h <;> rw [h] <;> norm_num) hosv hpatch hcl
        hcnul hm1 hm2, Option.map_some']
  · intro a vr k hp hk1 hk2 h3 hvr hdtb hvrlen hdtblen hcl hcnul hbl hbnul
    refine ⟨write_vendor_boot_data_v3 a
      (padTo a.pagesize (vendorHeaderFields a 0 0)),
      encodeVendorBoot_v3_ok a vr h3 hvr hdtb,
      extractFiles_encode_v3 a vr k hp hk2 h3 hvr hvrlen hdtblen,
      vendorV3_rebuild_roundtrip a vr k hp hk1 hk2 h3 hvr hdtb hcl hcnul
        hbl hbnul⟩

/-- Concrete boot-v3 and vendor-v3 instances of the round-trip
theorem. -/
theorem C1_roundtrip_witness :
    ((rebuildBootArgsV3 (unpackBootV3 (encodeBootV3
        { kernel := [1], ramdisk := [2], os_version := 0,
          os_patch_level := 1, header_version := 3,
          cmdline := [65] }))).map encodeBootV3 =
      some (encodeBootV3
        { kernel := [1], ramdisk := [2], os_version := 0,
          os_patch_level := 1, header_version := 3, cmdline := [65] })) ∧
    (∃ X, encodeVendorBoot
        { dtb := [7], vendor_ramdisk := some [9], vendor_bootconfig := [],
          vendor_cmdline := [65], board := [66], base := 0,
          kernel_offset := 0, ramdisk_offset := 0, tags_offset := 0,
          dtb_offset := 0, pagesize := 2048, header_version := 3 } [] =
          .ok X ∧
      extractFiles X (unpackVendorBootInfos X) =
        [("vendor_ramdisk", [9]), ("dtb", [7])] ∧
      (rebuildVendorArgsV3 (unpackVendorBootMeta X) [9] [7]).map
        (fun a2 => encodeVendorBoot a2 []) = some (.ok X)) :=
  ⟨C1_roundtrip.1 _ (by decide) (by decide) (by decide) (by decide)
      (by decide) (by decide) (by decide) (by decide) (by decide),
    C1_roundtrip.2 _ [9] 11 (by decide) (by decide) (by decide) (by decide)
      (by decide) (by decide) (by decide) (by decide) (by decide)
      (by decide) (by decide) (by decide)⟩

/-! ### Properties of the legacy boot codec -/

theorem padTo_append_ex (p : Nat) (out seg : List Nat) :
    ∃ t, padTo p (out ++ seg) = out ++ t :=
  ⟨seg ++ List.replicate (padAmount p (out ++ seg).length) 0, by
    rw [padTo, List.append_assoc]⟩

theorem append_ex_trans {x y z : List Nat} (h1 : ∃ t, y = x ++ t)
    (h2 : ∃ t, z = y ++ t) : ∃ t, z = x ++ t := by
  obtain ⟨t1, rfl⟩ := h1
  obtain ⟨t2, rfl⟩ := h2
  exact ⟨t1 ++ t2, by rw [List.append_assoc]⟩

theorem wpf_append_ex (p : Nat) (out seg : List Nat) :
    ∃ t, write_padded_file p out seg = out ++ t :=
  padTo_append_ex p out seg

theorem write_data_dtbo_append_ex (a : BootArgsLegacy) (out : List Nat) :
    ∃ t, write_data_dtbo a out = out ++ t := by
  unfold write_data_dtbo
  split
  · cases a.recovery_dtbo with
    | none => exact ⟨[], by simp⟩
    | some f => exact padTo_append_ex _ _ _
  · exact ⟨[], by simp⟩

theorem write_data_dtb_append_ex (a : BootArgsLegacy) (out : List Nat) :
    ∃ t, write_data_dtb a out = out ++ t := by
  unfold write_data_dtb
  split
  · exact padTo_append_ex _ _ _
  · exact ⟨[], by simp⟩

theorem write_data_legacy_append_ex (a : BootArgsLegacy) (out : List Nat) :
    ∃ t, write_data_legacy a out = out ++ t := by
  unfold write_data_legacy
  exact append_ex_trans (append_ex_trans (append_ex_trans
    (append_ex_trans (wpf_append_ex _ _ _) (wpf_append_ex _ _ _))
    (wpf_append_ex _ _ _)) (write_data_dtbo_append_ex _ _))
    (write_data_dtb_append_ex _ _)

/-- The full legacy container extends the raw header fields. -/
theorem encodeBootLegacy_append_ex (hash : List Nat → List Nat)
    (a : BootArgsLegacy) (hdtb : ¬(1 < a.header_version ∧ a.dtb.length = 0)) :
    ∃ t, encodeBootLegacy hash a =
      .ok (headerFieldsLegacy hash a ++ t) := by
  have hpad : ∃ t, padTo a.pagesize (headerFieldsLegacy hash a) =
      headerFieldsLegacy hash a ++ t := by
    obtain ⟨t1, h1⟩ := padTo_append_ex a.pagesize (headerFieldsLegacy hash a) []
    rw [List.append_nil] at h1
    exact ⟨t1, h1⟩
  obtain ⟨t, ht⟩ := append_ex_trans hpad (write_data_legacy_append_ex a
    (padTo a.pagesize (headerFieldsLegacy hash a)))
  refine ⟨t, ?_⟩
  unfold encodeBootLegacy write_header_legacy
  rw [if_neg hdtb]
  show Except.ok (write_data_legacy a
    (padTo a.pagesize (headerFieldsLegacy hash a))) = _
  rw [ht]

theorem legacyPrefix_length (hash : List Nat → List Nat)
    (a : BootArgsLegacy) : (legacyPrefix hash a).length = 1632 := by
  simp [legacyPrefix, packStr_length, le32, BOOT_MAGIC]

theorem legacy_r8 (hash : List Nat → List Nat) (a : BootArgsLegacy)
    (rest : List Nat) :
    readLE32 (legacyPrefix hash a ++ rest) 8 = a.kernel.length % 2 ^ 32 := by
  rw [legacyPrefix]
  simp only [List.append_assoc]
  rw [readLE32_chunk magic_len (by norm_num)]
  simpa using readLE32_le32 _ _

theorem legacy_r16 (hash : List Nat → List Nat) (a : BootArgsLegacy)
    (rest : List Nat) :
    readLE32 (legacyPrefix hash a ++ rest) 16 = a.ramdisk.length % 2 ^ 32 := by
  rw [legacyPrefix]
  simp only [List.append_assoc]
  rw [readLE32_chunk magic_len (by norm_num),
      readLE32_chunk (le32_len _) (by norm_num),
      readLE32_chunk (le32_len _) (by norm_num)]
  simpa using readLE32_le32 _ _

theorem legacy_r24 (hash : List Nat → List Nat) (a : BootArgsLegacy)
    (rest : List Nat) :
    readLE32 (legacyPrefix hash a ++ rest) 24 = a.second.length % 2 ^ 32 := by
  rw [legacyPrefix]
  simp only [List.append_assoc]
  rw [readLE32_chunk magic_len (by norm_num),
      readLE32_chunk (le32_len _) (by norm_num),
      readLE32_chunk (le32_len _) (by norm_num),
      readLE32_chunk (le32_len _) (by norm_num),
      readLE32_chunk (le32_len _) (by norm_num)]
  simpa using readLE32_le32 _ _

theorem legacy_r36 (hash : List Nat → List Nat) (a : BootArgsLegacy)
    (rest : List Nat) :
    readLE32 (legacyPrefix hash a ++ rest) 36 = a.pagesize % 2 ^ 32 := by
  rw [legacyPrefix]
  simp only [List.append_assoc]
  rw [readLE32_chunk magic_len (by norm_num),
      readLE32_chunk (le32_len _) (by norm_num),
      readLE32_chunk (le32_len _) (by norm_num),
      readLE32_chunk (le32_len _) (by norm_num),
      readLE32_chunk (le32_len _) (by norm_num),
      readLE32_chunk (le32_len _) (by norm_num),
      readLE32_chunk (le32_len _) (by norm_num),
      readLE32_chunk (le32_len _) (by norm_num)]
  simpa using readLE32_le32 _ _

theorem legacy_r40 (hash : List Nat → List Nat) (a : BootArgsLegacy)
    (rest : List Nat) :
    readLE32 (legacyPrefix hash a ++ rest) 40 =
      a.header_version % 2 ^ 32 := by
  rw [legacyPrefix]
  simp only [List.append_assoc]
  rw [readLE32_chunk magic_len (by norm_num),
      readLE32_chunk (le32_len _) (by norm_num),
      readLE32_chunk (le32_len _) (by norm_num),
      readLE32_chunk (le32_len _) (by norm_num),
      readLE32_chunk (le32_len _) (by norm_num),
      readLE32_chunk (le32_len _) (by norm_num),
      readLE32_chunk (le32_len _) (by norm_num),
      readLE32_chunk (le32_len _) (by norm_num),
      readLE32_chunk (le32_len _) (by norm_num)]
  simpa using readLE32_le32 _ _

theorem legacy_kernel_addr (hash : List Nat → List Nat)
    (a : BootArgsLegacy) (rest : List Nat) :
    readBytes (legacyPrefix hash a ++ rest) 12 4 =
      le32 (a.base + a.kernel_offset) := by
  rw [legacyPrefix]
  simp only [List.append_assoc]
  rw [readBytes_chunk magic_len (by norm_num),
      readBytes_chunk (le32_len _) (by norm_num)]
  simpa using readBytes_self (le32_len (a.base + a.kernel_offset))

theorem legacy_ramdisk_addr (hash : List Nat → List Nat)
    (a : BootArgsLegacy) (rest : List Nat) :
    readBytes (legacyPrefix hash a ++ rest) 20 4 =
      le32 (if 0 < a.ramdisk.length then a.base + a.ramdisk_offset
        else 0) := by
  rw [legacyPrefix]
  simp only [List.append_assoc]
  rw [readBytes_chunk magic_len (by norm_num),
      readBytes_chunk (le32_len _) (by norm_num),
      readBytes_chunk (le32_len _) (by norm_num),
      readBytes_chunk (le32_len _) (by norm_num)]
  simpa using readBytes_self (le32_len _)

theorem legacy_second_addr (hash : List Nat → List Nat)
    (a : BootArgsLegacy) (rest : List Nat) :
    readBytes (legacyPrefix hash a ++ rest) 28 4 =
      le32 (if 0 < a.second.length then a.base + a.second_offset
        else 0) := by
  rw [legacyPrefix]
  simp only [List.append_assoc]
  rw [readBytes_chunk magic_len (by norm_num),
      readBytes_chunk (le32_len _) (by norm_num),
      readBytes_chunk (le32_len _) (by norm_num),
      readBytes_chunk (le32_len _) (by norm_num),
      readBytes_chunk (le32_len _) (by norm_num),
      readBytes_chunk (le32_len _) (by norm_num)]
  simpa using readBytes_self (le32_len _)

theorem legacy_tags_addr (hash : List Nat → List Nat)
    (a : BootArgsLegacy) (rest : List Nat) :
    readBytes (legacyPrefix hash a ++ rest) 32 4 =
      le32 (a.base + a.tags_offset) := by
  rw [legacyPrefix]
  simp only [List.append_assoc]
  rw [readBytes_chunk magic_len (by norm_num),
      readBytes_chunk (le32_len _) (by norm_num),
      readBytes_chunk (le32_len _) (by norm_num),
      readBytes_chunk (le32_len _) (by norm_num),
      readBytes_chunk (le32_len _) (by norm_num),
      readBytes_chunk (le32_len _) (by norm_num),
      readBytes_chunk (le32_len _) (by norm_num)]
  simpa using readBytes_self (le32_len (a.base + a.tags_offset))

theorem legacy_digest_bytes (hash : List Nat → List Nat)
    (a : BootArgsLegacy) (rest : List Nat) :
    readBytes (legacyPrefix hash a ++ rest) 576 32 =
      packStr 32 (hash (sha_stream a)) := by
  rw [legacyPrefix]
  simp only [List.append_assoc]
  rw [readBytes_chunk magic_len (by norm_num),
      readBytes_chunk (le32_len _) (by norm_num),
      readBytes_chunk (le32_len _) (by norm_num),
      readBytes_chunk (le32_len _) (by norm_num),
      readBytes_chunk (le32_len _) (by norm_num),
      readBytes_chunk (le32_len _) (by norm_num),
      readBytes_chunk (le32_len _) (by norm_num),
      readBytes_chunk (le32_len _) (by norm_num),
      readBytes_chunk (le32_len _) (by norm_num),
      readBytes_chunk (le32_len _) (by norm_num),
      readBytes_chunk (le32_len _) (by norm_num),
      readBytes_chunk (packStr_length 16 a.board) (by norm_num),
      readBytes_chunk (packStr_length 512 a.cmdline) (by norm_num)]
  simpa using readBytes_packStr_self

/-- The legacy header tail for version 2 with a recovery_dtbo file. -/
theorem legacyTail_eq_v2 (a : BootArgsLegacy) (d : List Nat)
    (h2 : a.header_version = 2) (hd : a.recovery_dtbo = some d) :
    legacyTail a =
      (le32 d.length ++ le64 (get_recovery_dtbo_offset a)) ++
      le32 BOOT_IMAGE_HEADER_V2_SIZE ++
      (le32 a.dtb.length ++ le64 (a.base + a.dtb_offset)) := by
  unfold legacyTail
  rw [hd]
  simp [h2, filesizeOpt]

theorem legacy_r1632 (hash : List Nat → List Nat) (a : BootArgsLegacy)
    (d : List Nat) (rest : List Nat) (h2 : a.header_version = 2)
    (hd : a.recovery_dtbo = some d) :
    readLE32 (legacyPrefix hash a ++ (legacyTail a ++ rest)) 1632 =
      d.length % 2 ^ 32 := by
  rw [readLE32_chunk (legacyPrefix_length hash a) (by norm_num),
      legacyTail_eq_v2 a d h2 hd]
  simp only [List.append_assoc]
  simpa using readLE32_le32 _ _

theorem legacy_dtbo_offset_bytes (hash : List Nat → List Nat)
    (a : BootArgsLegacy) (d : List Nat) (rest : List Nat)
    (h2 : a.header_version = 2) (hd : a.recovery_dtbo = some d) :
    readBytes (legacyPrefix hash a ++ (legacyTail a ++ rest)) 1636 8 =
      le64 (get_recovery_dtbo_offset a) := by
  rw [readBytes_chunk (legacyPrefix_length hash a) (by norm_num),
      legacyTail_eq_v2 a d h2 hd]
  simp only [List.append_assoc]
  rw [readBytes_chunk (le32_len _) (by norm_num)]
  simpa using readBytes_self (le64_length (get_recovery_dtbo_offset a))

theorem legacy_r1636 (hash : List Nat → List Nat) (a : BootArgsLegacy)
    (d : List Nat) (rest : List Nat) (h2 : a.header_version = 2)
    (hd : a.recovery_dtbo = some d) :
    readLE64 (legacyPrefix hash a ++ (legacyTail a ++ rest)) 1636 =
      get_recovery_dtbo_offset a % 2 ^ 64 := by
  rw [readLE64_chunk (legacyPrefix_length hash a) (by norm_num),
      legacyTail_eq_v2 a d h2 hd]
  simp only [List.append_assoc]
  rw [readLE64_chunk (le32_len _) (by norm_num)]
  simpa using readLE64_le64 _ _

theorem legacy_r1648 (hash : List Nat → List Nat) (a : BootArgsLegacy)
    (d : List Nat) (rest : List Nat) (h2 : a.header_version = 2)
    (hd : a.recovery_dtbo = some d) :
    readLE32 (legacyPrefix hash a ++ (legacyTail a ++ rest)) 1648 =
      a.dtb.length % 2 ^ 32 := by
  rw [readLE32_chunk (legacyPrefix_length hash a) (by norm_num),
      legacyTail_eq_v2 a d h2 hd]
  simp only [List.append_assoc]
  rw [readLE32_chunk (le32_len _) (by norm_num),
      readLE32_chunk (le64_length _) (by norm_num),
      readLE32_chunk (le32_len _) (by norm_num)]
  simpa using readLE32_le32 _ _

/-- For any version > 0 with a recovery_dtbo file, the header tail
starts with the dtbo size/offset pair. -/
theorem legacyTail_dtbo_ex (a : BootArgsLegacy) (d : List Nat)
    (h1 : 0 < a.header_version) (hd : a.recovery_dtbo = some d) :
    ∃ t2, legacyTail a =
      (le32 d.length ++ le64 (get_recovery_dtbo_offset a)) ++ t2 := by
  unfold legacyTail
  rw [hd, if_pos h1]
  refine ⟨(if a.header_version = 1 then le32 BOOT_IMAGE_HEADER_V1_SIZE
      else if a.header_version = 2 then le32 BOOT_IMAGE_HEADER_V2_SIZE
      else []) ++
    (if 1 < a.header_version then
      le32 a.dtb.length ++ le64 (a.base + a.dtb_offset)
    else []), ?_⟩
  simp [filesizeOpt, List.append_assoc]

/-- The stored dtbo-offset field of any legacy encode with a
recovery_dtbo file. -/
theorem legacy_dtbo_store (hash : List Nat → List Nat)
    (a : BootArgsLegacy) (d : List Nat) (rest : List Nat)
    (h1 : 0 < a.header_version) (hd : a.recovery_dtbo = some d) :
    readBytes (legacyPrefix hash a ++ (legacyTail a ++ rest)) 1636 8 =
      le64 (get_recovery_dtbo_offset a) := by
  obtain ⟨t2, ht⟩ := legacyTail_dtbo_ex a d h1 hd
  rw [readBytes_chunk (legacyPrefix_length hash a) (by norm_num), ht]
  simp only [List.append_assoc]
  rw [readBytes_chunk (le32_len _) (by norm_num)]
  simpa using readBytes_self (le64_length (get_recovery_dtbo_offset a))

theorem byteAt_replicate0 (n i : Nat) :
    byteAt (List.replicate n (0 : Nat)) i = 0 := by
  unfold byteAt
  rcases Nat.lt_or_ge i n with h | h
  · rw [List.getD_eq_getElem _ _ (by simpa using h)]
    simp
  · rw [List.getD_eq_default _ _ (by simpa using h)]

theorem readLE32_replicate0 {n : Nat} (r : List Nat) {off : Nat}
    (h : off + 4 ≤ n) :
    readLE32 (List.replicate n (0 : Nat) ++ r) off = 0 := by
  rw [readLE32_append_inner (by simpa using h)]
  unfold readLE32
  rw [byteAt_replicate0, byteAt_replicate0, byteAt_replicate0,
      byteAt_replicate0]
  norm_num

theorem unpackBootLegacyInfos_cexC3bs :
    unpackBootLegacyInfos cexC3bs =
      [{ name := "kernel", offset := 0, size := 0 },
       { name := "ramdisk", offset := 0, size := 0 },
       { name := "recovery_dtbo", offset := 77, size := 1 }] := by
  have hrep : (List.replicate 40 (0 : Nat)).length = 40 :=
    List.length_replicate 40 0
  have hrep2 : (List.replicate 1588 (0 : Nat)).length = 1588 :=
    List.length_replicate 1588 0
  unfold unpackBootLegacyInfos cexC3bs
  simp only [List.append_assoc]
  rw [readLE32_replicate0 _ (by norm_num),
      readLE32_replicate0 _ (by norm_num),
      readLE32_replicate0 _ (by norm_num),
      readLE32_replicate0 _ (by norm_num),
      readLE32_chunk hrep (by norm_num)]
  rw [show (40 : Nat) - 40 = 0 by norm_num, readLE32_le32,
      readLE32_chunk hrep (by norm_num),
      readLE32_chunk (le32_len 1) (by norm_num),
      readLE32_chunk hrep2 (by norm_num)]
  rw [show (1632 : Nat) - 40 - 4 - 1588 = 0 by norm_num, readLE32_le32,
      readLE64_chunk hrep (by norm_num),
      readLE64_chunk (le32_len 1) (by norm_num),
      readLE64_chunk hrep2 (by norm_num),
      readLE64_chunk (le32_len 1) (by norm_num)]
  rw [show (1636 : Nat) - 40 - 4 - 1588 - 4 = 0 by norm_num]
  rw [show readLE64 (le64 77) 0 = 77 % 2 ^ 64 by
        simpa using readLE64_le64 77 []]
  norm_num [get_number_of_pages]

theorem mem_ite_nil {α : Type} (c : Prop) [Decidable c] (l : List α)
    (x : α) (h : x ∈ if c then l else []) : x ∈ l := by
  by_cases hc : c
  · rwa [if_pos hc] at h
  · rw [if_neg hc] at h
    exact absurd h (List.not_mem_nil x)

theorem cexC3_hv : cexC3.header_version = 2 := rfl

theorem cexC3_page : cexC3.pagesize = 4096 := rfl

theorem cexC3_dtbo : cexC3.recovery_dtbo = some (List.replicate 4096 4) :=
  rfl

theorem cexC3_klen : cexC3.kernel.length = 4096 := by
  rw [show cexC3.kernel = List.replicate 4096 1 from rfl,
      List.length_replicate]

theorem cexC3_rlen : cexC3.ramdisk.length = 4096 := by
  rw [show cexC3.ramdisk = List.replicate 4096 2 from rfl,
      List.length_replicate]

theorem cexC3_slen : cexC3.second.length = 4096 := by
  rw [show cexC3.second = List.replicate 4096 3 from rfl,
      List.length_replicate]

theorem cexC3_dlen : cexC3.dtb.length = 4096 := by
  rw [show cexC3.dtb = List.replicate 4096 5 from rfl,
      List.length_replicate]

set_option maxRecDepth 4000 in
/-- C3: the encoder stores the recovery_dtbo offset explicitly as
page_size × (header page + kernel pages + ramdisk pages + second
pages); the decoder reports the stored 64-bit field verbatim for every
container; and on Scenario A (five 4096-byte segments, page 4096) the
derived offsets are kernel 4096, ramdisk 8192, second 12288, dtb
20480, with recovery_dtbo at the stored 16384. -/
theorem C3_recovery_dtbo_offset :
    (∀ (hash : List Nat → List Nat) (a : BootArgsLegacy) (d : List Nat),
      0 < a.header_version → a.header_version ≤ 2 →
      a.recovery_dtbo = some d →
      ¬(1 < a.header_version ∧ a.dtb.length = 0) →
      ∃ X, encodeBootLegacy hash a = .ok X ∧
        readBytes X 1636 8 = le64 (a.pagesize *
          (1 + get_number_of_pages a.kernel.length a.pagesize +
            get_number_of_pages a.ramdisk.length a.pagesize +
            get_number_of_pages a.second.length a.pagesize))) ∧
    (∀ (bs : List Nat) (e : Extraction), e ∈ unpackBootLegacyInfos bs →
      e.name = "recovery_dtbo" → e.offset = readLE64 bs 1636) ∧
    (∀ hash : List Nat → List Nat, ∃ X,
      encodeBootLegacy hash cexC3 = .ok X ∧
      unpackBootLegacyInfos X =
        [{ name := "kernel", offset := 4096, size := 4096 },
         { name := "ramdisk", offset := 8192, size := 4096 },
         { name := "second", offset := 12288, size := 4096 },
         { name := "recovery_dtbo", offset := 16384, size := 4096 },
         { name := "dtb", offset := 20480, size := 4096 }]) := by
  refine ⟨?_, ?_, ?_⟩
  · intro hash a d h1 h2 hd hdtb
    obtain ⟨t, ht⟩ := encodeBootLegacy_append_ex hash a hdtb
    refine ⟨_, ht, ?_⟩
    rw [headerFieldsLegacy, List.append_assoc,
        legacy_dtbo_store hash a d t h1 hd]
    rfl
  · intro bs e hmem hname
    simp only [unpackBootLegacyInfos] at hmem
    rcases List.mem_append.mp hmem with h123 | hT
    rotate_left
    · have hT2 := mem_ite_nil _ _ _ hT
      simp only [List.mem_cons, List.not_mem_nil, or_false] at hT2
      subst hT2
      simp at hname
    rcases List.mem_append.mp h123 with h12 | hD
    rotate_left
    · have hD2 := mem_ite_nil _ _ _ hD
      simp only [List.mem_cons, List.not_mem_nil, or_false] at hD2
      subst hD2
      rfl
    rcases List.mem_append.mp h12 with hKR | hS
    rotate_left
    · have hS2 := mem_ite_nil _ _ _ hS
      simp only [List.mem_cons, List.not_mem_nil, or_false] at hS2
      subst hS2
      simp at hname
    simp only [List.mem_cons, List.not_mem_nil, or_false] at hKR
    rcases hKR with h | h
    · subst h
      simp at hname
    · subst h
      simp at hname
  · intro hash
    obtain ⟨t, ht⟩ := encodeBootLegacy_append_ex hash cexC3
      (by rw [cexC3_hv, cexC3_dlen]; omega)
    refine ⟨_, ht, ?_⟩
    rw [headerFieldsLegacy, List.append_assoc]
    simp only [unpackBootLegacyInfos]
    rw [legacy_r8, legacy_r16, legacy_r24, legacy_r36, legacy_r40,
        legacy_r1632 hash cexC3 (List.replicate 4096 4) t cexC3_hv
          cexC3_dtbo,
        legacy_r1636 hash cexC3 (List.replicate 4096 4) t cexC3_hv
          cexC3_dtbo,
        legacy_r1648 hash cexC3 (List.replicate 4096 4) t cexC3_hv
          cexC3_dtbo,
        cexC3_klen, cexC3_rlen, cexC3_slen, cexC3_dlen, cexC3_page,
        cexC3_hv, List.length_replicate]
    have hm : (4096 : Nat) % 2 ^ 32 = 4096 := by norm_num
    have hm2 : (2 : Nat) % 2 ^ 32 = 2 := by norm_num
    have hpg : get_number_of_pages 4096 4096 = 1 := by
      norm_num [get_number_of_pages]
    have hoff : get_recovery_dtbo_offset cexC3 % 2 ^ 64 = 16384 := by
      rw [get_recovery_dtbo_offset, cexC3_klen, cexC3_rlen, cexC3_slen,
          cexC3_page]
      norm_num [get_number_of_pages]
    rw [hm, hm2, hoff]
    norm_num [hpg]

set_option maxRecDepth 40000 in
/-- Concrete instances of the three parts of the recovery_dtbo-offset
theorem. -/
theorem C3_recovery_dtbo_offset_witness :
    (∃ X, encodeBootLegacy (fun _ => []) cexC3 = .ok X ∧
      readBytes X 1636 8 = le64 (cexC3.pagesize *
        (1 + get_number_of_pages cexC3.kernel.length cexC3.pagesize +
          get_number_of_pages cexC3.ramdisk.length cexC3.pagesize +
          get_number_of_pages cexC3.second.length cexC3.pagesize))) ∧
    ((⟨"recovery_dtbo", 77, 1⟩ : Extraction).offset =
      readLE64 cexC3bs 1636) ∧
    (∃ X, encodeBootLegacy (fun _ => []) cexC3 = .ok X ∧
      unpackBootLegacyInfos X =
        [{ name := "kernel", offset := 4096, size := 4096 },
         { name := "ramdisk", offset := 8192, size := 4096 },
         { name := "second", offset := 12288, size := 4096 },
         { name := "recovery_dtbo", offset := 16384, size := 4096 },
         { name := "dtb", offset := 20480, size := 4096 }]) :=
  ⟨C3_recovery_dtbo_offset.1 (fun _ => []) cexC3 (List.replicate 4096 4)
      (by simp [cexC3_hv]) (by simp [cexC3_hv]) rfl
      (by simp [cexC3_hv, cexC3_dlen]),
    C3_recovery_dtbo_offset.2.1 cexC3bs ⟨"recovery_dtbo", 77, 1⟩
      (by simp [unpackBootLegacyInfos_cexC3bs]) rfl,
    C3_recovery_dtbo_offset.2.2 (fun _ => [])⟩

/-- C10: in the legacy header the ramdisk and second load-address
fields are `base + offset` only when the segment is present and 0 when
absent, while the kernel and tags load addresses are written
unconditionally. -/
theorem C10_conditional_load_addresses :
    ∀ (hash : List Nat → List Nat) (a : BootArgsLegacy),
      a.header_version ≤ 2 →
      ¬(1 < a.header_version ∧ a.dtb.length = 0) →
      ∃ X, encodeBootLegacy hash a = .ok X ∧
        readBytes X 12 4 = le32 (a.base + a.kernel_offset) ∧
        readBytes X 20 4 = le32 (if 0 < a.ramdisk.length then
          a.base + a.ramdisk_offset else 0) ∧
        readBytes X 28 4 = le32 (if 0 < a.second.length then
          a.base + a.second_offset else 0) ∧
        readBytes X 32 4 = le32 (a.base + a.tags_offset) := by
  intro hash a hv hdtb
  obtain ⟨t, ht⟩ := encodeBootLegacy_append_ex hash a hdtb
  refine ⟨_, ht, ?_, ?_, ?_, ?_⟩ <;>
    rw [headerFieldsLegacy, List.append_assoc]
  · exact legacy_kernel_addr hash a _
  · exact legacy_ramdisk_addr hash a _
  · exact legacy_second_addr hash a _
  · exact legacy_tags_addr hash a _

/-- Concrete instance of the load-address theorem. -/
theorem C10_conditional_load_addresses_witness :
    ∃ X, encodeBootLegacy (fun _ => []) cexC10 = .ok X ∧
      readBytes X 12 4 = le32 (cexC10.base + cexC10.kernel_offset) ∧
      readBytes X 20 4 = le32 (if 0 < cexC10.ramdisk.length then
        cexC10.base + cexC10.ramdisk_offset else 0) ∧
      readBytes X 28 4 = le32 (if 0 < cexC10.second.length then
        cexC10.base + cexC10.second_offset else 0) ∧
      readBytes X 32 4 = le32 (cexC10.base + cexC10.tags_offset) :=
  C10_conditional_load_addresses (fun _ => []) cexC10 (by decide) (by decide)

/-- `sha_stream` written as the flat concatenation of the claim:
content then 4-byte length per segment, an absent segment contributing
only a zero length. -/
theorem sha_stream_flat (a : BootArgsLegacy) :
    sha_stream a =
      a.kernel ++ le32 a.kernel.length ++ a.ramdisk ++
      le32 a.ramdisk.length ++ a.second ++ le32 a.second.length ++
      (if 0 < a.header_version then
        a.recovery_dtbo.getD [] ++ le32 (filesizeOpt a.recovery_dtbo)
      else []) ++
      (if 1 < a.header_version then a.dtb ++ le32 a.dtb.length
      else []) := by
  unfold sha_stream
  rcases hrd : a.recovery_dtbo with _ | f <;>
    simp [hrd, filesizeOpt, List.append_assoc]

/-- C8: the embedded content digest of a legacy encode is the digest of
the claimed concatenation, and two encodes with identical segment
contents, absence pattern and version carry identical digest fields
regardless of addresses, cmdline, board or page size. -/
theorem C8_content_digest :
    (∀ (hash : List Nat → List Nat) (a : BootArgsLegacy),
      a.header_version ≤ 2 →
      ¬(1 < a.header_version ∧ a.dtb.length = 0) →
      ∃ X, encodeBootLegacy hash a = .ok X ∧
        readBytes X 576 32 = packStr 32 (hash (
          a.kernel ++ le32 a.kernel.length ++ a.ramdisk ++
          le32 a.ramdisk.length ++ a.second ++ le32 a.second.length ++
          (if 0 < a.header_version then
            a.recovery_dtbo.getD [] ++ le32 (filesizeOpt a.recovery_dtbo)
          else []) ++
          (if 1 < a.header_version then a.dtb ++ le32 a.dtb.length
          else [])))) ∧
    (∀ (hash : List Nat → List Nat) (a1 a2 : BootArgsLegacy),
      a1.kernel = a2.kernel → a1.ramdisk = a2.ramdisk →
      a1.second = a2.second → a1.recovery_dtbo = a2.recovery_dtbo →
      a1.dtb = a2.dtb → a1.header_version = a2.header_version →
      a1.header_version ≤ 2 →
      ¬(1 < a1.header_version ∧ a1.dtb.length = 0) →
      ∃ X1 X2, encodeBootLegacy hash a1 = .ok X1 ∧
        encodeBootLegacy hash a2 = .ok X2 ∧
        readBytes X1 576 32 = readBytes X2 576 32) := by
  constructor
  · intro hash a hv hdtb
    obtain ⟨t, ht⟩ := encodeBootLegacy_append_ex hash a hdtb
    refine ⟨_, ht, ?_⟩
    rw [headerFieldsLegacy, List.append_assoc, legacy_digest_bytes,
        sha_stream_flat]
  · intro hash a1 a2 hk hr hs hrd hd hv hv2 hdtb
    have hstream : sha_stream a1 = sha_stream a2 := by
      unfold sha_stream
      rw [hk, hr, hs, hrd, hd, hv]
    obtain ⟨t1, ht1⟩ := encodeBootLegacy_append_ex hash a1 hdtb
    obtain ⟨t2, ht2⟩ := encodeBootLegacy_append_ex hash a2
      (by rw [← hv, ← hd]; exact hdtb)
    refine ⟨_, _, ht1, ht2, ?_⟩
    rw [headerFieldsLegacy, List.append_assoc, legacy_digest_bytes,
        headerFieldsLegacy, List.append_assoc, legacy_digest_bytes,
        hstream]

/-- Concrete instances of both digest properties: a version-1 image
with an absent recovery_dtbo, and a pair differing only in base
address and cmdline. -/
theorem C8_content_digest_witness :
    (∃ X, encodeBootLegacy (fun s => s) cexC8a = .ok X ∧
      readBytes X 576 32 = packStr 32 ((fun s => s) (
        cexC8a.kernel ++ le32 cexC8a.kernel.length ++ cexC8a.ramdisk ++
        le32 cexC8a.ramdisk.length ++ cexC8a.second ++
        le32 cexC8a.second.length ++
        (if 0 < cexC8a.header_version then
          cexC8a.recovery_dtbo.getD [] ++
            le32 (filesizeOpt cexC8a.recovery_dtbo)
        else []) ++
        (if 1 < cexC8a.header_version then
          cexC8a.dtb ++ le32 cexC8a.dtb.length
        else [])))) ∧
    (∃ X1 X2, encodeBootLegacy (fun s => s) cexC8a = .ok X1 ∧
      encodeBootLegacy (fun s => s) cexC8b = .ok X2 ∧
      readBytes X1 576 32 = readBytes X2 576 32) :=
  ⟨(C8_content_digest.1 (fun s => s) cexC8a (by decide) (by decide)),
    (C8_content_digest.2 (fun s => s) cexC8a cexC8b rfl rfl rfl rfl rfl
      rfl (by decide) (by decide))⟩

/-- Every padded write ends on a page boundary (for the power-of-two
page sizes the CLI admits). -/
theorem wpf_length_mod (p k : Nat) (hp : p = 2 ^ k) (out seg : List Nat) :
    (write_padded_file p out seg).length % p = 0 := by
  subst hp
  exact padTo_length_mod k (out ++ seg)

theorem write_data_dtbo_mod (a : BootArgsLegacy) (k : Nat)
    (hp : a.pagesize = 2 ^ k) (out : List Nat)
    (h : out.length % a.pagesize = 0) :
    (write_data_dtbo a out).length % a.pagesize = 0 := by
  unfold write_data_dtbo
  split
  · cases a.recovery_dtbo with
    | none => exact h
    | some f =>
      rw [hp]
      exact padTo_length_mod k (out ++ f)
  · exact h

theorem write_data_dtb_mod (a : BootArgsLegacy) (k : Nat)
    (hp : a.pagesize = 2 ^ k) (out : List Nat)
    (h : out.length % a.pagesize = 0) :
    (write_data_dtb a out).length % a.pagesize = 0 := by
  unfold write_data_dtb
  split
  · rw [hp]
    exact padTo_length_mod k (out ++ a.dtb)
  · exact h

/-- C2: padding is written after the header and after every segment
including the last, so the total container length and every segment's
start offset (the length of the output already written when the
segment starts) are multiples of the padding unit - the header page
size for legacy boot and vendor-boot images, the fixed 4096 for
boot v3/v4. -/
theorem C2_padding_invariant :
    (∀ (p k : Nat), p = 2 ^ k → ∀ out seg : List Nat,
      (write_padded_file p out seg).length % p = 0) ∧
    (∀ a : BootArgsV3,
      (write_header_v3 a).length % 4096 = 0 ∧
      (write_padded_file 4096 (write_header_v3 a) a.kernel).length %
        4096 = 0 ∧
      (encodeBootV3 a).length % 4096 = 0) ∧
    (∀ (hash : List Nat → List Nat) (a : BootArgsLegacy) (k : Nat),
      a.pagesize = 2 ^ k →
      ¬(1 < a.header_version ∧ a.dtb.length = 0) →
      (padTo a.pagesize (headerFieldsLegacy hash a)).length %
        a.pagesize = 0 ∧
      (∀ out : List Nat, out.length % a.pagesize = 0 →
        (write_data_dtbo a out).length % a.pagesize = 0 ∧
        (write_data_dtb a out).length % a.pagesize = 0 ∧
        (write_data_legacy a out).length % a.pagesize = 0) ∧
      ∃ X, encodeBootLegacy hash a = .ok X ∧
        X.length % a.pagesize = 0) ∧
    (∀ (a : VendorBootArgs) (k ts en : Nat), a.pagesize = 2 ^ k →
      a.dtb ≠ [] →
      ∃ X, write_vendor_boot_header a ts en = .ok X ∧
        X.length % a.pagesize = 0 ∧
        (write_vendor_boot_data_v3 a X).length % a.pagesize = 0 ∧
        ∀ b : VendorRamdiskTableBuilder,
          (write_vendor_boot_data_v4 a b X).length % a.pagesize = 0) := by
  refine ⟨wpf_length_mod, ?_, ?_, ?_⟩
  · intro a
    refine ⟨?_, ?_, ?_⟩
    · rw [write_header_v3, BOOT_IMAGE_HEADER_V3_PAGESIZE,
          show (4096 : Nat) = 2 ^ 12 by norm_num]
      exact padTo_length_mod 12 _
    · exact wpf_length_mod 4096 12 (by norm_num) _ _
    · rw [encodeBootV3]
      exact wpf_length_mod 4096 12 (by norm_num) _ _
  · intro hash a k hp hdtb
    refine ⟨?_, ?_, ?_⟩
    · rw [hp]
      exact padTo_length_mod k _
    · intro out hout
      refine ⟨write_data_dtbo_mod a k hp out hout,
        write_data_dtb_mod a k hp out hout, ?_⟩
      rw [write_data_legacy]
      exact write_data_dtb_mod a k hp _ (write_data_dtbo_mod a k hp _
        (wpf_length_mod _ k hp _ _))
    · obtain ⟨t, ht⟩ := encodeBootLegacy_append_ex hash a hdtb
      refine ⟨_, ht, ?_⟩
      have : headerFieldsLegacy hash a ++ t =
          write_data_legacy a (padTo a.pagesize
            (headerFieldsLegacy hash a)) := by
        have h2 : encodeBootLegacy hash a = .ok (write_data_legacy a
            (padTo a.pagesize (headerFieldsLegacy hash a))) := by
          unfold encodeBootLegacy write_header_legacy
          rw [if_neg hdtb]
          rfl
        rw [ht] at h2
        exact (Except.ok.injEq _ _ ).mp h2.symm |>.symm ▸ rfl
      rw [this, write_data_legacy]
      exact write_data_dtb_mod a k hp _ (write_data_dtbo_mod a k hp _
        (wpf_length_mod _ k hp _ _))
  · intro a k ts en hp hdtb
    refine ⟨padTo a.pagesize (vendorHeaderFields a ts en), ?_, ?_, ?_, ?_⟩
    · unfold write_vendor_boot_header
      rw [if_neg (by simpa using hdtb)]
    · rw [hp]
      exact padTo_length_mod k _
    · rw [write_vendor_boot_data_v3]
      exact wpf_length_mod _ k hp _ _
    · intro b
      rw [write_vendor_boot_data_v4]
      exact wpf_length_mod _ k hp _ _

/-- Concrete instances of the four padding-invariant parts. -/
theorem C2_padding_invariant_witness :
    ((write_padded_file 2048 [] [1]).length % 2048 = 0) ∧
    ((encodeBootV3
      { kernel := [1], ramdisk := [2], os_version := 0,
        os_patch_level := 0, header_version := 3,
        cmdline := [] }).length % 4096 = 0) ∧
    (∃ X, encodeBootLegacy (fun _ => []) cexC8a = .ok X ∧
      X.length % cexC8a.pagesize = 0) ∧
    (∃ X, write_vendor_boot_header cexC2v 0 0 = .ok X ∧
      X.length % cexC2v.pagesize = 0) :=
  ⟨(C2_padding_invariant.1 2048 11 (by norm_num) [] [1]),
    (C2_padding_invariant.2.1 _).2.2,
    (by
      obtain ⟨h1, h2, h3⟩ := C2_padding_invariant.2.2.1 (fun _ => [])
        cexC8a 11 (by decide) (by decide)
      exact h3),
    (by
      obtain ⟨X, h1, h2, h3, h4⟩ := C2_padding_invariant.2.2.2 cexC2v
        11 0 0 (by decide) (by decide)
      exact ⟨X, h1, h2⟩)⟩

theorem addEntries_spec (fs : List RamdiskFragment) :
    ∀ b0 : VendorRamdiskTableBuilder,
      (∀ f ∈ fs, ∀ l, f.board_id = some l → l.length = 16) →
      ∃ b, addEntries b0 fs = .ok b ∧
        b.entries = b0.entries ++
          expectedEntries b0.ramdisk_total_size fs ∧
        b.ramdisk_total_size = b0.ramdisk_total_size +
          (fs.map fun f => f.bytes.length).sum := by
  induction fs with
  | nil =>
    intro b0 hok
    exact ⟨b0, rfl, by simp [expectedEntries], by simp⟩
  | cons f t ih =>
    intro b0 hok
    have hadd : add_entry b0 f = .ok
        { entries := b0.entries ++ [entryOf f b0.ramdisk_total_size],
          ramdisk_total_size :=
            b0.ramdisk_total_size + f.bytes.length } := by
      unfold add_entry
      rcases hb : f.board_id with _ | l
      · rw [if_neg (by simp [VENDOR_RAMDISK_TABLE_ENTRY_BOARD_ID_SIZE])]
        simp [entryOf, hb]
      · have hl : l.length = 16 := hok f (by simp) l hb
        rw [if_neg (by
          simp [VENDOR_RAMDISK_TABLE_ENTRY_BOARD_ID_SIZE, hl])]
        simp [entryOf, hb]
    obtain ⟨b, hb, he, hs⟩ := ih
      { entries := b0.entries ++ [entryOf f b0.ramdisk_total_size],
        ramdisk_total_size := b0.ramdisk_total_size + f.bytes.length }
      (fun g hg l hl => hok g (by simp [hg]) l hl)
    refine ⟨b, ?_, ?_, ?_⟩
    · rw [show addEntries b0 (f :: t) =
          (add_entry b0 f).bind fun b2 => addEntries b2 t from rfl, hadd]
      exact hb
    · rw [he]
      simp [expectedEntries, List.append_assoc]
    · rw [hs]
      simp [List.sum_cons]
      omega

/-- The size and offset fields of the `i`-th accumulated entry. -/
theorem expectedEntries_get (fs : List RamdiskFragment) :
    ∀ (off i : Nat) (h : i < fs.length)
      (h2 : i < (expectedEntries off fs).length),
      ((expectedEntries off fs).get ⟨i, h2⟩).ramdisk_size =
        (fs.get ⟨i, h⟩).bytes.length ∧
      ((expectedEntries off fs).get ⟨i, h2⟩).ramdisk_offset =
        off + ((fs.take i).map fun f => f.bytes.length).sum := by
  induction fs with
  | nil =>
    intro off i h
    exact absurd h (by simp)
  | cons f t ih =>
    intro off i h h2
    cases i with
    | zero => simp [expectedEntries, entryOf]
    | succ j =>
      have hj : j < t.length := by simpa using h
      have hj2 : j < (expectedEntries (off + f.bytes.length) t).length := by
        simpa [expectedEntries] using h2
      obtain ⟨ha, hb⟩ := ih (off + f.bytes.length) j hj hj2
      refine ⟨?_, ?_⟩
      · simpa [expectedEntries] using ha
      · rw [show ((expectedEntries off (f :: t)).get
            ⟨j + 1, h2⟩) = ((expectedEntries (off + f.bytes.length) t).get
            ⟨j, hj2⟩) from rfl, hb]
        simp [List.sum_cons]
        omega

/-- The v4 shape of the vendor-boot header fields. -/
theorem vendorHeaderFieldsV4_eq (a : VendorBootArgs) (ts en : Nat)
    (h4 : 3 < a.header_version) :
    vendorHeaderFields a ts en =
      packStr 8 VENDOR_BOOT_MAGIC ++ le32 a.header_version ++
      le32 a.pagesize ++ le32 (a.base + a.kernel_offset) ++
      le32 (a.base + a.ramdisk_offset) ++ le32 ts ++
      packStr 2048 a.vendor_cmdline ++ le32 (a.base + a.tags_offset) ++
      packStr 16 a.board ++ le32 VENDOR_BOOT_IMAGE_HEADER_V4_SIZE ++
      le32 a.dtb.length ++ le64 (a.base + a.dtb_offset) ++
      (le32 (en * VENDOR_RAMDISK_TABLE_ENTRY_V4_SIZE) ++ le32 en ++
        le32 VENDOR_RAMDISK_TABLE_ENTRY_V4_SIZE ++
        le32 a.vendor_bootconfig.length) := by
  rw [vendorHeaderFields, if_pos h4, if_pos h4, if_pos h4]

theorem vndV4_table_size (a : VendorBootArgs) (ts en : Nat)
    (h4 : 3 < a.header_version) :
    readBytes (vendorHeaderFields a ts en) 2112 4 =
      le32 (en * VENDOR_RAMDISK_TABLE_ENTRY_V4_SIZE) := by
  rw [vendorHeaderFieldsV4_eq a ts en h4]
  simp only [List.append_assoc]
  rw [readBytes_chunk vmagic_len (by norm_num),
      readBytes_chunk (le32_len _) (by norm_num),
      readBytes_chunk (le32_len _) (by norm_num),
      readBytes_chunk (le32_len _) (by norm_num),
      readBytes_chunk (le32_len _) (by norm_num),
      readBytes_chunk (le32_len _) (by norm_num),
      readBytes_chunk (packStr_length 2048 a.vendor_cmdline) (by norm_num),
      readBytes_chunk (le32_len _) (by norm_num),
      readBytes_chunk (packStr_length 16 a.board) (by norm_num),
      readBytes_chunk (le32_len _) (by norm_num),
      readBytes_chunk (le32_len _) (by norm_num),
      readBytes_chunk (le64_length _) (by norm_num)]
  simpa using readBytes_self (le32_len _)

theorem vndV4_total_size (a : VendorBootArgs) (ts en : Nat)
    (h4 : 3 < a.header_version) :
    readBytes (vendorHeaderFields a ts en) 24 4 = le32 ts := by
  rw [vendorHeaderFieldsV4_eq a ts en h4]
  simp only [List.append_assoc]
  rw [readBytes_chunk vmagic_len (by norm_num),
      readBytes_chunk (le32_len _) (by norm_num),
      readBytes_chunk (le32_len _) (by norm_num),
      readBytes_chunk (le32_len _) (by norm_num),
      readBytes_chunk (le32_len _) (by norm_num)]
  simpa using readBytes_self (le32_len ts)

/-- C4: fragment `i` is assigned offset `Σ s_j (j < i)` (the first gets
0), the declared total equals `Σ s_i`, and the v4 header's table-size
field is `N × 108` (its total-size field the declared total). -/
theorem C4_table_arithmetic :
    ∀ fs : List RamdiskFragment,
      (∀ f ∈ fs, ∀ l, f.board_id = some l → l.length = 16) →
      ∃ b, addEntries ⟨[], 0⟩ fs = .ok b ∧
        b.entries.length = fs.length ∧
        b.ramdisk_total_size = (fs.map fun f => f.bytes.length).sum ∧
        (∀ (i : Nat) (h : i < fs.length), ∃ e,
          b.entries[i]? = some e ∧
          e.ramdisk_size = (fs.get ⟨i, h⟩).bytes.length ∧
          e.ramdisk_offset =
            ((fs.take i).map fun f => f.bytes.length).sum) ∧
        (∀ a : VendorBootArgs, 3 < a.header_version →
          readBytes (vendorHeaderFields a b.ramdisk_total_size
            b.entries.length) 2112 4 =
            le32 (b.entries.length * VENDOR_RAMDISK_TABLE_ENTRY_V4_SIZE) ∧
          readBytes (vendorHeaderFields a b.ramdisk_total_size
            b.entries.length) 24 4 = le32 b.ramdisk_total_size) := by
  intro fs hok
  obtain ⟨b, hb, he, hs⟩ := addEntries_spec fs ⟨[], 0⟩ hok
  have hexlen : ∀ (gs : List RamdiskFragment) (off : Nat),
      (expectedEntries off gs).length = gs.length := by
    intro gs
    induction gs with
    | nil => intro off; rfl
    | cons g t ih => intro off; simp [expectedEntries, ih]
  have hlen : b.entries.length = fs.length := by
    rw [he]
    simp [hexlen]
  refine ⟨b, hb, hlen, by simpa using hs, ?_, ?_⟩
  · intro i h
    have hbe : b.entries = expectedEntries 0 fs := by simpa using he
    have h3 : i < (expectedEntries 0 fs).length := by
      rw [hexlen]
      exact h
    obtain ⟨ha, hb2⟩ := expectedEntries_get fs 0 i h h3
    refine ⟨(expectedEntries 0 fs).get ⟨i, h3⟩, ?_, ha,
      by rw [hb2]; omega⟩
    rw [hbe]
    exact List.getElem?_eq_getElem h3
  · intro a h4
    exact ⟨vndV4_table_size a _ _ h4, vndV4_total_size a _ _ h4⟩

/-- Scenario B concretely: total 0x3000, entry 0 at offset 0 size
0x1000, entry 1 at offset 0x1000 size 0x2000, table size 216. -/
theorem C4_table_arithmetic_witness :
    ∃ b, addEntries ⟨[], 0⟩ cexC4 = .ok b ∧
      b.entries.length = 2 ∧ b.ramdisk_total_size = 12288 ∧
      (∃ e, b.entries[0]? = some e ∧ e.ramdisk_size = 4096 ∧
        e.ramdisk_offset = 0) ∧
      (∃ e, b.entries[1]? = some e ∧ e.ramdisk_size = 8192 ∧
        e.ramdisk_offset = 4096) ∧
      readBytes (vendorHeaderFields cexC4v b.ramdisk_total_size
        b.entries.length) 2112 4 = le32 216 := by
  have hboard : ∀ f ∈ cexC4, ∀ l, f.board_id = some l → l.length = 16 := by
    intro f hf l hl
    rcases List.mem_cons.mp hf with h | h2
    · rw [h] at hl
      exact Option.noConfusion hl
    · rcases List.mem_cons.mp h2 with h | h
      · rw [h] at hl
        exact Option.noConfusion hl
      · exact absurd h (List.not_mem_nil f)
  obtain ⟨b, h1, h2, h3, h4, h5⟩ := C4_table_arithmetic cexC4 hboard
  have hc2 : cexC4.length = 2 := rfl
  have hg0 : ∀ h, (cexC4.get ⟨(0 : Nat), h⟩).bytes =
      List.replicate 4096 1 := fun _ => rfl
  have hg1 : ∀ h, (cexC4.get ⟨(1 : Nat), h⟩).bytes =
      List.replicate 8192 2 := fun _ => rfl
  have hmap : cexC4.map (fun f => f.bytes.length) =
      [(List.replicate 4096 1).length, (List.replicate 8192 2).length] :=
    rfl
  have hmap1 : (cexC4.take 1).map (fun f => f.bytes.length) =
      [(List.replicate 4096 1).length] := rfl
  have hmap0 : (cexC4.take 0).map (fun f => f.bytes.length) = [] := rfl
  obtain ⟨e0, he0, hs0, ho0⟩ := h4 0 (by omega)
  obtain ⟨e1, he1, hs1, ho1⟩ := h4 1 (by omega)
  obtain ⟨hts, htot⟩ := h5 cexC4v (by norm_num [cexC4v])
  refine ⟨b, h1, by omega, ?_, ⟨e0, he0, ?_, ?_⟩, ⟨e1, he1, ?_, ?_⟩, ?_⟩
  · rw [h3, hmap, List.length_replicate, List.length_replicate]
    rfl
  · rw [hs0, hg0, List.length_replicate]
  · rw [ho0, hmap0]
    rfl
  · rw [hs1, hg1, List.length_replicate]
  · rw [ho1, hmap1, List.length_replicate]
    rfl
  · rw [hts, h2, hc2]
    rfl

/-- When the names to come contain a duplicate (against `seen` or among
themselves) and every option group parses, the fragment loop stops with
the duplicate-name error. -/
theorem parseFragments_dup (fs : List RamdiskFragment) :
    ∀ (seen : List (List Nat)) (b : VendorRamdiskTableBuilder),
      seen.Nodup →
      (∀ f ∈ fs, f.ramdisk_name.length ≤ 32 ∧
        ∀ l, f.board_id = some l → l.length = 16) →
      ¬ (seen ++ fs.map fun f => f.ramdisk_name).Nodup →
      parseFragments seen b fs =
        .error "Duplicated vendor ramdisk name" := by
  induction fs with
  | nil =>
    intro seen b hseen hval hdup
    rw [List.map_nil, List.append_nil] at hdup
    exact absurd hseen hdup
  | cons f t ih =>
    intro seen b hseen hval hdup
    obtain ⟨hlen, hbid⟩ := hval f (by simp)
    rw [parseFragments, if_neg (by omega)]
    by_cases hmem : f.ramdisk_name ∈ seen
    · rw [if_pos hmem]
    · rw [if_neg hmem]
      obtain ⟨b2, hb2⟩ : ∃ b2, add_entry b f = .ok b2 := by
        unfold add_entry
        rcases hb : f.board_id with _ | l
        · exact ⟨_, by
            rw [if_neg (by
              simp [VENDOR_RAMDISK_TABLE_ENTRY_BOARD_ID_SIZE])]⟩
        · exact ⟨_, by
            rw [if_neg (by
              simp [VENDOR_RAMDISK_TABLE_ENTRY_BOARD_ID_SIZE,
                hbid l hb])]⟩
      rw [hb2]
      show parseFragments (f.ramdisk_name :: seen) b2 t = _
      apply ih (f.ramdisk_name :: seen) b2
        (List.nodup_cons.mpr ⟨hmem, hseen⟩)
        (fun g hg => hval g (by simp [hg]))
      intro hcontra
      apply hdup
      rw [List.map_cons, List.nodup_middle]
      simpa using hcontra

/-- C7: when two fragments (the synthesized unnamed legacy fragment
included) share a name, the v4 vendor-boot pipeline fails with the
duplicate-name error during argument parsing, i.e. before the header
or any data bytes are produced. -/
theorem C7_duplicate_fragment_names :
    ∀ (a : VendorBootArgs) (frags : List RamdiskFragment),
      3 < a.header_version →
      (∀ f ∈ frags, f.ramdisk_name.length ≤ 32 ∧
        ∀ l, f.board_id = some l → l.length = 16) →
      ¬ ((match a.vendor_ramdisk with
          | some _ => [([] : List Nat)]
          | none => []) ++ frags.map fun f => f.ramdisk_name).Nodup →
      encodeVendorBoot a frags =
        .error "Duplicated vendor ramdisk name" := by
  intro a frags h4 hval hdup
  have hparse : parse_vendor_ramdisk_args a.vendor_ramdisk frags =
      .error "Duplicated vendor ramdisk name" := by
    unfold parse_vendor_ramdisk_args
    rcases hvr : a.vendor_ramdisk with _ | v
    · rw [hvr] at hdup
      show parseFragments [] ⟨[], 0⟩ frags = _
      exact parseFragments_dup frags [] ⟨[], 0⟩ List.nodup_nil hval
        (by simpa using hdup)
    · rw [hvr] at hdup
      obtain ⟨b1, hb1⟩ : ∃ b1, add_entry ⟨[], 0⟩
          { bytes := v, ramdisk_type := VENDOR_RAMDISK_TYPE_NONE,
            ramdisk_name := [], board_id := none } = .ok b1 := ⟨_, rfl⟩
      show (do
        let b ← add_entry ⟨[], 0⟩
          { bytes := v, ramdisk_type := VENDOR_RAMDISK_TYPE_NONE,
            ramdisk_name := [], board_id := none }
        parseFragments [[]] b frags) = _
      rw [hb1]
      show parseFragments [[]] b1 frags = _
      exact parseFragments_dup frags [[]] b1 (by simp) hval
        (by simpa using hdup)
  unfold encodeVendorBoot
  rw [if_pos h4, hparse]
  rfl

/-- Two fragments named `A`, with a legacy `--vendor_ramdisk` also
given: the pipeline stops with the duplicate-name error. -/
theorem C7_duplicate_fragment_names_witness :
    encodeVendorBoot cexC4v
      [{ bytes := [1], ramdisk_type := 0, ramdisk_name := [65],
         board_id := none },
       { bytes := [2], ramdisk_type := 0, ramdisk_name := [65],
         board_id := none }] =
      .error "Duplicated vendor ramdisk name" :=
  C7_duplicate_fragment_names cexC4v _ (by decide)
    (by
      intro f hf
      rcases List.mem_cons.mp hf with h | h2
      · rw [h]
        exact ⟨by decide, fun l2 hl2 => Option.noConfusion hl2⟩
      · rcases List.mem_cons.mp h2 with h | h
        · rw [h]
          exact ⟨by decide, fun l2 hl2 => Option.noConfusion hl2⟩
        · exact absurd h (List.not_mem_nil f))
    (by decide)

/-- C5 counterexample: a cmdline of length exactly 1536 (the full
buffer capacity) is accepted by `AssertString(maxlen=1536)` and packed
with no NUL terminator, where the claim says a capacity-length string
is rejected. -/
theorem C5_counterexample :
    AssertString 1536 (List.replicate 1536 65) =
      .ok (List.replicate 1536 65) ∧
    packStr 1536 (List.replicate 1536 65) = List.replicate 1536 65 := by
  constructor
  · rw [AssertString, if_neg (by rw [List.length_replicate]; omega)]
  · rw [packStr, List.length_replicate, Nat.sub_self, List.replicate_zero,
        List.append_nil, List.take_replicate, Nat.min_self]

/-- C5 (amended): the length check fails exactly when the string is
longer than the full buffer capacity; a string of length capacity−1 is
accepted and stored with a NUL terminator appended, and a string of
length equal to the capacity is also accepted, stored with no
terminator. -/
theorem C5_cmdline_capacity :
    (∀ (cap : Nat) (s : List Nat),
      ((∃ m, AssertString cap s = .error m) ↔ cap < s.length) ∧
      (AssertString cap s = .ok s ↔ s.length ≤ cap)) ∧
    (∀ s : List Nat, s.length + 1 = 1536 →
      packStr 1536 s = s ++ [0]) ∧
    (∀ s : List Nat, s.length = 1536 → packStr 1536 s = s) ∧
    (∀ s : List Nat, s.length + 1 = 2048 → packStr 2048 s = s ++ [0]) ∧
    (∀ s : List Nat, s.length = 2048 → packStr 2048 s = s) := by
  have hpack : ∀ (cap : Nat) (s : List Nat), s.length + 1 = cap →
      packStr cap s = s ++ [0] := by
    intro cap s h
    rw [packStr, List.take_of_length_le (by omega),
        show cap - s.length = 1 by omega]
    rfl
  have hfull : ∀ (cap : Nat) (s : List Nat), s.length = cap →
      packStr cap s = s := by
    intro cap s h
    rw [packStr, List.take_of_length_le (by omega),
        show cap - s.length = 0 by omega, List.replicate_zero,
        List.append_nil]
  refine ⟨?_, hpack 1536, hfull 1536, hpack 2048, hfull 2048⟩
  · intro cap s
    constructor
    · constructor
      · rintro ⟨m, hm⟩
        by_contra hlt
        rw [AssertString, if_neg hlt] at hm
        exact Except.noConfusion hm
      · intro h
        exact ⟨_, by rw [AssertString, if_pos h]⟩
    · constructor
      · intro h
        by_contra hlt
        rw [AssertString, if_pos (by omega)] at h
        exact Except.noConfusion h
      · intro h
        rw [AssertString, if_neg (by omega)]

/-- Concrete instances: capacity−1 accepted with terminator, capacity
accepted unterminated, capacity+1 rejected, for both buffer sizes. -/
theorem C5_cmdline_capacity_witness :
    ((∃ m, AssertString 1536 (List.replicate 1537 65) = .error m) ↔
      1536 < (List.replicate 1537 65).length) ∧
    (packStr 1536 (List.replicate 1535 65) =
      List.replicate 1535 65 ++ [0]) ∧
    (packStr 1536 (List.replicate 1536 66) = List.replicate 1536 66) ∧
    (packStr 2048 (List.replicate 2047 65) =
      List.replicate 2047 65 ++ [0]) ∧
    (packStr 2048 (List.replicate 2048 66) = List.replicate 2048 66) :=
  ⟨(C5_cmdline_capacity.1 1536 (List.replicate 1537 65)).1,
    C5_cmdline_capacity.2.1 _ (by rw [List.length_replicate]),
    C5_cmdline_capacity.2.2.1 _ (by rw [List.length_replicate]),
    C5_cmdline_capacity.2.2.2.1 _ (by rw [List.length_replicate]),
    C5_cmdline_capacity.2.2.2.2 _ (by rw [List.length_replicate])⟩

/-- C6 counterexample: on the 8-byte magic `UNKNOWN!` the decoder does
not fail with any error - `unpack_image`'s if/elif chain falls through
and the call returns normally, having decoded nothing. -/
theorem C6_counterexample :
    unpack_image [85, 78, 75, 78, 79, 87, 78, 33] =
      UnpackResult.skipped := by
  rw [unpack_image, if_neg (by decide), if_neg (by decide)]

/-- C6 (amended): the decoder reads the first 8 bytes and dispatches:
`ANDROID!` to the boot decoder and `VNDRBOOT` to the vendor-boot
decoder; any other magic makes `unpack_image` decode nothing and
return without raising an error (no UnknownFormat failure exists in
the code). -/
theorem C6_magic_dispatch :
    ∀ bs : List Nat,
      (bs.take 8 = BOOT_MAGIC →
        unpack_image bs = .boot (unpack_bootimage_infos bs)) ∧
      (bs.take 8 = VENDOR_BOOT_MAGIC →
        unpack_image bs = .vendorBoot (unpackVendorBootInfos bs)) ∧
      (bs.take 8 ≠ BOOT_MAGIC → bs.take 8 ≠ VENDOR_BOOT_MAGIC →
        unpack_image bs = .skipped) := by
  intro bs
  refine ⟨?_, ?_, ?_⟩
  · intro h
    rw [unpack_image, if_pos h]
  · intro h
    rw [unpack_image, if_neg (by rw [h]; decide), if_pos h]
  · intro h1 h2
    rw [unpack_image, if_neg h1, if_neg h2]

/-- Concrete dispatches: a boot magic, a vendor magic, and an unknown
magic. -/
theorem C6_magic_dispatch_witness :
    (unpack_image (BOOT_MAGIC ++ List.replicate 36 0) =
      .boot (unpack_bootimage_infos (BOOT_MAGIC ++ List.replicate 36 0))) ∧
    (unpack_image (VENDOR_BOOT_MAGIC ++ List.replicate 36 0) =
      .vendorBoot (unpackVendorBootInfos
        (VENDOR_BOOT_MAGIC ++ List.replicate 36 0))) ∧
    (unpack_image [85, 78, 75, 78, 79, 87, 78, 34] = .skipped) :=
  ⟨(C6_magic_dispatch (BOOT_MAGIC ++ List.replicate 36 0)).1 (by decide),
    (C6_magic_dispatch (VENDOR_BOOT_MAGIC ++ List.replicate 36 0)).2.1
      (by decide),
    (C6_magic_dispatch [85, 78, 75, 78, 79, 87, 78, 34]).2.2 (by decide)
      (by decide)⟩

/-- C9 counterexample: on the well-formed 4096-byte v3 container the
encoder produces from empty kernel and ramdisk files, every header
read of the decoder is in bounds, the kernel and ramdisk rows are
requested even though their declared sizes are 0, and the extraction
loop produces an (empty) output file for each - the claim says a
size-0 segment produces no output file. -/
theorem C9_counterexample :
    cexC9bs.length = 4096 ∧
    unpack_bootimage_infos cexC9bs =
      .ok [{ name := "kernel", offset := 4096, size := 0 },
           { name := "ramdisk", offset := 4096, size := 0 }] ∧
    extractFiles cexC9bs
        [{ name := "kernel", offset := 4096, size := 0 },
         { name := "ramdisk", offset := 4096, size := 0 }] =
      [("kernel", []), ("ramdisk", [])] := by
  have h1 : (write_header_v3 cexC9).length = 4096 := write_header_v3_length _
  have hpa : padAmount 4096 4096 = 0 := by decide
  have h2 : padTo 4096 (write_header_v3 cexC9) = write_header_v3 cexC9 := by
    rw [padTo, h1, hpa, List.replicate, List.append_nil]
  have hbs : cexC9bs = write_header_v3 cexC9 := by
    show padTo 4096 (padTo 4096 (write_header_v3 cexC9 ++ cexC9.kernel) ++
      cexC9.ramdisk) = write_header_v3 cexC9
    rw [show cexC9.kernel = [] from rfl, show cexC9.ramdisk = [] from rfl]
    simp only [List.append_nil]
    rw [h2, h2]
  have hlen : cexC9bs.length = 4096 := by rw [hbs, h1]
  have h40 : readLE32 cexC9bs 40 = 3 := by
    show readLE32 (encodeBootV3 cexC9) 40 = 3
    rw [encodeBootV3_read_header _ (by norm_num), hdrV3_header_version]
    rfl
  have h8 : readLE32 cexC9bs 8 = 0 := by
    show readLE32 (encodeBootV3 cexC9) 8 = 0
    rw [encodeBootV3_read_header _ (by norm_num), hdrV3_kernel_size]
    rfl
  have h12 : readLE32 cexC9bs 12 = 0 := by
    show readLE32 (encodeBootV3 cexC9) 12 = 0
    rw [encodeBootV3_read_header _ (by norm_num), hdrV3_ramdisk_size]
    rfl
  refine ⟨hlen, ?_, rfl⟩
  rw [unpack_bootimage_infos, if_neg (by rw [h40]; norm_num),
      unpackBootV3Infos, if_neg (by rw [hlen]; norm_num), h8, h12]
  rfl

/-- C9 (amended): every extraction seeks to the computed offset, reads
exactly the declared size (when in bounds) and stores the bytes
verbatim in its named slot; the conditionally-requested segments
(second, recovery_dtbo, dtb of the boot path) are requested exactly
when their declared size is positive, so only they produce no output
file at size 0 - kernel, ramdisk and the vendor-boot segments are
always requested, a size-0 request producing an empty output file. -/
theorem C9_extraction :
    (∀ (bs : List Nat) (infos : List Extraction),
      extractFiles bs infos =
        infos.map fun e => (e.name, (bs.drop e.offset).take e.size)) ∧
    (∀ (bs : List Nat) (off n : Nat), off + n ≤ bs.length →
      (readBytes bs off n).length = n) ∧
    (∀ bs : List Nat,
      (∃ e ∈ unpackBootLegacyInfos bs, e.name = "kernel" ∧
        e.size = readLE32 bs 8) ∧
      (∃ e ∈ unpackBootLegacyInfos bs, e.name = "ramdisk" ∧
        e.size = readLE32 bs 16) ∧
      ((∃ e ∈ unpackBootLegacyInfos bs, e.name = "second") ↔
        0 < readLE32 bs 24) ∧
      ((∃ e ∈ unpackBootLegacyInfos bs, e.name = "recovery_dtbo") ↔
        0 < (if 0 < readLE32 bs 40 ∧ readLE32 bs 40 < 3 then
          readLE32 bs 1632 else 0)) ∧
      ((∃ e ∈ unpackBootLegacyInfos bs, e.name = "dtb") ↔
        0 < (if 1 < readLE32 bs 40 ∧ readLE32 bs 40 < 3 then
          readLE32 bs 1648 else 0)) ∧
      (∃ e ∈ unpackVendorBootInfos bs, e.name = "dtb" ∧
        e.size = readLE32 bs 2100)) := by
  refine ⟨fun bs infos => rfl, ?_, ?_⟩
  · intro bs off n h
    rw [readBytes, List.length_take, List.length_drop]
    omega
  · intro bs
    have hsplit : ∀ e ∈ unpackBootLegacyInfos bs,
        e.name = "kernel" ∨ e.name = "ramdisk" ∨
        (e.name = "second" ∧ 0 < readLE32 bs 24) ∨
        (e.name = "recovery_dtbo" ∧
          0 < (if 0 < readLE32 bs 40 ∧ readLE32 bs 40 < 3 then
            readLE32 bs 1632 else 0)) ∨
        (e.name = "dtb" ∧
          0 < (if 1 < readLE32 bs 40 ∧ readLE32 bs 40 < 3 then
            readLE32 bs 1648 else 0)) := by
      intro e he
      simp only [unpackBootLegacyInfos] at he
      rcases List.mem_append.mp he with h123 | hT
      rotate_left
      · refine Or.inr (Or.inr (Or.inr (Or.inr ?_)))
        by_cases hc : 0 < (if 1 < readLE32 bs 40 ∧ readLE32 bs 40 < 3
          then readLE32 bs 1648 else 0)
        · rw [if_pos hc] at hT
          simp only [List.mem_cons, List.not_mem_nil, or_false] at hT
          subst hT
          exact ⟨rfl, hc⟩
        · rw [if_neg hc] at hT
          exact absurd hT (List.not_mem_nil e)
      rcases List.mem_append.mp h123 with h12 | hD
      rotate_left
      · refine Or.inr (Or.inr (Or.inr (Or.inl ?_)))
        by_cases hc : 0 < (if 0 < readLE32 bs 40 ∧ readLE32 bs 40 < 3
          then readLE32 bs 1632 else 0)
        · rw [if_pos hc] at hD
          simp only [List.mem_cons, List.not_mem_nil, or_false] at hD
          subst hD
          exact ⟨rfl, hc⟩
        · rw [if_neg hc] at hD
          exact absurd hD (List.not_mem_nil e)
      rcases List.mem_append.mp h12 with hKR | hS
      rotate_left
      · refine Or.inr (Or.inr (Or.inl ?_))
        by_cases hc : 0 < readLE32 bs 24
        · rw [if_pos hc] at hS
          simp only [List.mem_cons, List.not_mem_nil, or_false] at hS
          subst hS
          exact ⟨rfl, hc⟩
        · rw [if_neg hc] at hS
          exact absurd hS (List.not_mem_nil e)
      simp only [List.mem_cons, List.not_mem_nil, or_false] at hKR
      rcases hKR with h | h
      · subst h
        exact Or.inl rfl
      · subst h
        exact Or.inr (Or.inl rfl)
    refine ⟨?_, ?_, ?_, ?_, ?_, ?_⟩
    · simp only [unpackBootLegacyInfos, List.append_assoc,
        List.cons_append, List.nil_append]
      exact ⟨_, List.mem_cons_self _ _, rfl, rfl⟩
    · simp only [unpackBootLegacyInfos, List.append_assoc,
        List.cons_append, List.nil_append]
      exact ⟨_, List.mem_cons_of_mem _ (List.mem_cons_self _ _), rfl, rfl⟩
    · constructor
      · rintro ⟨e, he, hn⟩
        rcases hsplit e he with h | h | h | h | h
        · rw [hn] at h
          exact absurd h (by decide)
        · rw [hn] at h
          exact absurd h (by decide)
        · exact h.2
        · rw [hn] at h
          exact absurd h.1 (by decide)
        · rw [hn] at h
          exact absurd h.1 (by decide)
      · intro h
        simp only [unpackBootLegacyInfos]
        rw [if_pos h]
        exact ⟨_, List.mem_append_left _ (List.mem_append_left _
          (List.mem_append_right _ (List.mem_cons_self _ _))), rfl⟩
    · constructor
      · rintro ⟨e, he, hn⟩
        rcases hsplit e he with h | h | h | h | h
        · rw [hn] at h
          exact absurd h (by decide)
        · rw [hn] at h
          exact absurd h (by decide)
        · rw [hn] at h
          exact absurd h.1 (by decide)
        · exact h.2
        · rw [hn] at h
          exact absurd h.1 (by decide)
      · intro h
        simp only [unpackBootLegacyInfos]
        rw [if_pos h]
        exact ⟨_, List.mem_append_left _ (List.mem_append_right _
          (List.mem_cons_self _ _)), rfl⟩
    · constructor
      · rintro ⟨e, he, hn⟩
        rcases hsplit e he with h | h | h | h | h
        · rw [hn] at h
          exact absurd h (by decide)
        · rw [hn] at h
          exact absurd h (by decide)
        · rw [hn] at h
          exact absurd h.1 (by decide)
        · rw [hn] at h
          exact absurd h.1 (by decide)
        · exact h.2
      · intro h
        simp only [unpackBootLegacyInfos]
        rw [if_pos h]
        exact ⟨_, List.mem_append_right _ (List.mem_cons_self _ _), rfl⟩
    · simp only [unpackVendorBootInfos]
      exact ⟨_, List.mem_append_right _ (List.mem_cons_self _ _), rfl, rfl⟩

/-- Concrete instances: exact-size reads and the always/conditional
request pattern on the zero-size container. -/
theorem C9_extraction_witness :
    (extractFiles [1, 2, 3, 4, 5, 6, 7, 8, 9, 10, 11, 12]
        [⟨"kernel", 4096, 0⟩] =
      ([⟨"kernel", 4096, 0⟩] : List Extraction).map fun e =>
        (e.name,
          (([1, 2, 3, 4, 5, 6, 7, 8, 9, 10, 11, 12].drop e.offset).take
            e.size))) ∧
    ((readBytes [1, 2, 3, 4, 5, 6, 7, 8, 9, 10, 11, 12] 8 4).length = 4) ∧
    ((∃ e ∈ unpackBootLegacyInfos [1, 2, 3, 4, 5, 6, 7, 8, 9, 10, 11, 12],
        e.name = "second") ↔
      0 < readLE32 [1, 2, 3, 4, 5, 6, 7, 8, 9, 10, 11, 12] 24) :=
  ⟨C9_extraction.1 _ [⟨"kernel", 4096, 0⟩],
    C9_extraction.2.1 _ 8 4 (by decide),
    (C9_extraction.2.2 _).2.2.1⟩

end Mkbootimg
